import Mathlib

/-!
Verification of the HintLab session persistence layer
(`source/backend/services/save_and_load_service.py`).

The development shallowly embeds the service module: parsed JSON payloads
become values of an inductive `JSON` type, the relational store becomes an
explicit `DB` record of row lists, and each Python function of the service
becomes a Lean function over those types.  Python exceptions are modelled
with `Except String`; a raised exception is `.error msg`.  Python dynamic
operations (`in`, subscription, `.get`, iteration, truthiness) are modelled
by small helper functions that reproduce Python's behaviour on every JSON
shape, including the `TypeError` / `KeyError` / `AttributeError` cases.
-/

/-- A parsed JSON value (the result of `json.loads`): exactly the Python
values `None`, `bool`, numbers, `str`, `list`, `dict` that can come out of
the decoder.  Object fields keep their insertion order, as Python dicts do. -/
inductive JSON where
  | null : JSON
  | bool (b : Bool) : JSON
  | num (q : Rat) : JSON
  | str (s : String) : JSON
  | arr (elems : List JSON) : JSON
  | obj (fields : List (String × JSON)) : JSON
deriving Repr

mutual

/-- Decidable equality for `JSON`, by structural recursion. -/
def JSON.beq : JSON → JSON → Bool
  | .null, .null => true
  | .bool a, .bool b => a == b
  | .num a, .num b => a == b
  | .str a, .str b => a == b
  | .arr xs, .arr ys => JSON.beqList xs ys
  | .obj xs, .obj ys => JSON.beqFields xs ys
  | _, _ => false

def JSON.beqList : List JSON → List JSON → Bool
  | [], [] => true
  | x :: xs, y :: ys => JSON.beq x y && JSON.beqList xs ys
  | _, _ => false

def JSON.beqFields : List (String × JSON) → List (String × JSON) → Bool
  | [], [] => true
  | (k, v) :: xs, (k2, v2) :: ys => k == k2 && JSON.beq v v2 && JSON.beqFields xs ys
  | _, _ => false

end

instance : BEq JSON := ⟨JSON.beq⟩

mutual

theorem JSON.beq_refl : (j : JSON) → JSON.beq j j = true
  | .null => rfl
  | .bool b => by simp [JSON.beq]
  | .num q => by simp [JSON.beq]
  | .str s => by simp [JSON.beq]
  | .arr xs => by simpa [JSON.beq] using JSON.beqList_refl xs
  | .obj xs => by simpa [JSON.beq] using JSON.beqFields_refl xs

theorem JSON.beqList_refl : (xs : List JSON) → JSON.beqList xs xs = true
  | [] => rfl
  | x :: xs => by simp [JSON.beqList, JSON.beq_refl x, JSON.beqList_refl xs]

theorem JSON.beqFields_refl : (xs : List (String × JSON)) → JSON.beqFields xs xs = true
  | [] => rfl
  | (k, v) :: xs => by
      simp [JSON.beqFields, JSON.beq_refl v, JSON.beqFields_refl xs]

end

mutual

theorem JSON.eq_of_beq : {a b : JSON} → JSON.beq a b = true → a = b
  | .null, .null, _ => rfl
  | .bool a, .bool b, h => by simp_all [JSON.beq]
  | .num a, .num b, h => by simp_all [JSON.beq]
  | .str a, .str b, h => by simp_all [JSON.beq]
  | .arr xs, .arr ys, h => by
      simp only [JSON.beq] at h
      exact congrArg JSON.arr (JSON.eqList_of_beq h)
  | .obj xs, .obj ys, h => by
      simp only [JSON.beq] at h
      exact congrArg JSON.obj (JSON.eqFields_of_beq h)

theorem JSON.eqList_of_beq : {xs ys : List JSON} → JSON.beqList xs ys = true → xs = ys
  | [], [], _ => rfl
  | x :: xs, y :: ys, h => by
      simp only [JSON.beqList, Bool.and_eq_true] at h
      rw [JSON.eq_of_beq h.1, JSON.eqList_of_beq h.2]

theorem JSON.eqFields_of_beq :
    {xs ys : List (String × JSON)} → JSON.beqFields xs ys = true → xs = ys
  | [], [], _ => rfl
  | (k, v) :: xs, (k2, v2) :: ys, h => by
      simp only [JSON.beqFields, Bool.and_eq_true] at h
      obtain ⟨⟨hk, hv⟩, hrest⟩ := h
      rw [show k = k2 from by simpa using hk, JSON.eq_of_beq hv,
        JSON.eqFields_of_beq hrest]

end

instance : LawfulBEq JSON where
  eq_of_beq := JSON.eq_of_beq
  rfl := JSON.beq_refl _

instance : DecidableEq JSON := fun a b =>
  if h : JSON.beq a b = true then .isTrue (JSON.eq_of_beq h)
  else .isFalse (fun he => h (he ▸ JSON.beq_refl a))

/-- First value stored under `key` in an ordered field list (Python dicts
have unique keys, so first = only). -/
def lookupField : List (String × JSON) → String → Option JSON
  | [], _ => none
  | (k, v) :: rest, key => if k == key then some v else lookupField rest key

/-- Python truthiness (`bool(v)`) of a JSON value. -/
def pyTruthy : JSON → Bool
  | .null => false
  | .bool b => b
  | .num q => q != 0
  | .str s => s != ""
  | .arr xs => !xs.isEmpty
  | .obj kvs => !kvs.isEmpty

mutual

/-- Python `repr` of a JSON value (`None`, `True`, quoted strings,
bracketed lists, braced dicts). -/
def pyRepr : JSON → String
  | .null => "None"
  | .bool true => "True"
  | .bool false => "False"
  | .num q => toString q
  | .str s => "'" ++ s ++ "'"
  | .arr xs => "[" ++ pyReprList xs ++ "]"
  | .obj kvs => "\x7b" ++ pyReprFields kvs ++ "\x7d"

def pyReprList : List JSON → String
  | [] => ""
  | [x] => pyRepr x
  | x :: rest => pyRepr x ++ ", " ++ pyReprList rest

def pyReprFields : List (String × JSON) → String
  | [] => ""
  | [(k, v)] => "'" ++ k ++ "': " ++ pyRepr v
  | (k, v) :: rest => "'" ++ k ++ "': " ++ pyRepr v ++ ", " ++ pyReprFields rest

end

/-- Python `str(v)`: the string itself for strings, `repr` otherwise. -/
def pyStr (v : JSON) : String :=
  match v with
  | .str s => s
  | other => pyRepr other

/-- Python membership `needle in container` for a string needle.  Key lookup
on dicts, element equality on lists, substring test on strings; `none`
models the `TypeError` raised on numbers, booleans and `None`. -/
def pyContainsStr (container : JSON) (needle : String) : Option Bool :=
  match container with
  | .obj kvs => some (kvs.any (fun kv => kv.1 == needle))
  | .arr xs => some (xs.any (fun x => x == JSON.str needle))
  | .str s => some (decide (needle.toList <:+: s.toList))
  | _ => none

/-- Python subscription `container[key]` with a string key; `none` models
`KeyError` (dict without the key) and `TypeError` (non-dict). -/
def pyGetItemStr (container : JSON) (key : String) : Option JSON :=
  match container with
  | .obj kvs => lookupField kvs key
  | _ => none

/-- Python subscription `container[i]` with an integer index; `none` models
`IndexError` / `KeyError` / `TypeError` as appropriate. -/
def pyGetItemIdx (container : JSON) (i : Nat) : Option JSON :=
  match container with
  | .arr xs => xs.get? i
  | .str s => (s.toList.get? i).map (fun c => JSON.str (String.mk [c]))
  | _ => none

/-- Python `v.get(key, dflt)` inside exception-propagating code:
`AttributeError` for non-dicts. -/
def pyAttrGet (v : JSON) (key : String) (dflt : JSON) : Except String JSON :=
  match v with
  | .obj kvs => .ok ((lookupField kvs key).getD dflt)
  | _ => .error ("AttributeError: object has no attribute get: " ++ pyStr v)

/-- Python `container[key]` inside exception-propagating code. -/
def pySubscript (container : JSON) (key : String) : Except String JSON :=
  match container with
  | .obj kvs =>
      match lookupField kvs key with
      | some x => .ok x
      | none => .error ("KeyError: " ++ key)
  | _ => .error "TypeError: object is not subscriptable"

/-- Python `container[i]` (integer index) inside exception-propagating code. -/
def pyIndex (container : JSON) (i : Nat) : Except String JSON :=
  match container with
  | .arr xs =>
      match xs.get? i with
      | some x => .ok x
      | none => .error "IndexError: list index out of range"
  | .str s =>
      match s.toList.get? i with
      | some c => .ok (.str (String.mk [c]))
      | none => .error "IndexError: string index out of range"
  | .obj _ => .error "KeyError: integer key"
  | _ => .error "TypeError: object is not subscriptable"

/-- Python iteration `for x in v`: list elements, string characters, dict
keys; `TypeError` otherwise. -/
def pyIter (v : JSON) : Except String (List JSON) :=
  match v with
  | .arr xs => .ok xs
  | .str s => .ok (s.toList.map (fun c => JSON.str (String.mk [c])))
  | .obj kvs => .ok (kvs.map (fun kv => JSON.str kv.1))
  | _ => .error "TypeError: object is not iterable"

/-- Python `len(v)`; `TypeError` on unsized values. -/
def pyLen (v : JSON) : Except String Nat :=
  match v with
  | .arr xs => .ok xs.length
  | .str s => .ok s.length
  | .obj kvs => .ok kvs.length
  | _ => .error "TypeError: object has no len"

/-- `is_full_backup_format` (service lines 178-190): true when the payload
has candidates or metrics inside `instances`.  Every Python operation of the
original (`in`, subscription, truthiness) is reproduced, and the enclosing
`try/except: return False` is the final `Option.getD false`. -/
def is_full_backup_format (data : JSON) : Bool :=
  (do
    let hasInst ← pyContainsStr data "instances"
    if !hasInst then
      pure false
    else do
      let inst ← pyGetItemStr data "instances"
      let hasCands ← pyContainsStr inst "candidates_full"
      if hasCands then
        pure true
      else do
        let hasHints ← pyContainsStr inst "hints"
        if !hasHints then
          pure false
        else do
          let hints ← pyGetItemStr inst "hints"
          if !(pyTruthy hints) then
            pure false
          else do
            let h0 ← pyGetItemIdx hints 0
            pyContainsStr h0 "metrics").getD false

/-- `is_simple_json_format` (service lines 192-199): Python
`"instances" in data` under a `try/except: return False`. -/
def is_simple_json_format (data : JSON) : Bool :=
  (pyContainsStr data "instances").getD false

/-- `validate_full_import_structure` (service lines 202-213).  Raised
`ValueError`s are `.error` with the source's message text; the observed
ground-truth count is interpolated into the message exactly as the source
does. -/
def validate_full_import_structure (data : JSON) : Except String Unit := do
  let inst ← pyAttrGet data "instances" (.obj [])
  if !(pyTruthy inst) then
    throw "Structure Error: 'instances' object is missing."
  else do
    let cands ← pyAttrGet inst "candidates_full" (.arr [])
    if !(pyTruthy cands) then
      throw "Full Backup Error: Must have at least 2 candidates in 'candidates_full'."
    else do
      let n ← pyLen cands
      if n < 2 then
        throw "Full Backup Error: Must have at least 2 candidates in 'candidates_full'."
      else do
        let items ← pyIter cands
        let flags ← items.mapM (fun c => pyAttrGet c "is_groundtruth" .null)
        let gt_count := (flags.filter (fun f => f == JSON.bool true)).length
        if gt_count ≠ 1 then
          throw s!"Full Backup Error: Candidates must have exactly one item with 'is_groundtruth': true. Found {gt_count}."
        else
          pure ()

/-!
## The relational store

The schema (six tables, declared outside the service module) is modelled as
explicit row lists.  Ids are drawn from one ascending sequence `nextId`, and
`created_at` timestamps from an ascending `clock`, reflecting the storage
engine's serial columns and the monotone wall clock: consequently a table's
list order coincides with `id` order and with `created_at` order, so the
source's `ORDER BY id ASC` is list order and
`ORDER BY created_at DESC LIMIT 1` is the last matching list entry.
-/

structure QuestionRow where
  qid : Nat
  text : JSON
  session_id : String
  created_at : String
deriving Repr, DecidableEq

structure AnswerRow where
  aid : Nat
  question_id : Nat
  answer_text : JSON
  model_name : Option String
  created_at : String
deriving Repr, DecidableEq

structure HintRow where
  hid : Nat
  question_id : Nat
  answer_id : Nat
  hint_text : JSON
  created_at : String
deriving Repr, DecidableEq

structure MetricRow where
  mid : Nat
  hint_id : Nat
  name : JSON
  value : JSON
  metadata_json : Option JSON
deriving Repr, DecidableEq

structure EntityRow where
  eid : Nat
  hint_id : Nat
  entity : JSON
  ent_type : JSON
  start_index : JSON
  end_index : JSON
  metadata_json : Option JSON
deriving Repr, DecidableEq

structure CandidateRow where
  cid : Nat
  question_id : Nat
  candidate_text : JSON
  is_eliminated : Bool
  created_at : JSON
  updated_at : JSON
  is_groundtruth : Bool
deriving Repr, DecidableEq

/-- The session-scoped relational state visible to the service, plus the id
sequence and the clock. -/
structure DB where
  questions : List QuestionRow
  answers : List AnswerRow
  hints : List HintRow
  metrics : List MetricRow
  entities : List EntityRow
  candidate_answers : List CandidateRow
  nextId : Nat
  clock : Nat
deriving Repr, DecidableEq

def DB.empty : DB := ⟨[], [], [], [], [], [], 1, 0⟩

/-- `get_current_timestamp` (service lines 21-22): one fresh ISO-style
timestamp per call, modelled by the ticking clock. -/
def get_current_timestamp (clock : Nat) : String := s!"ts-{clock}"

def DB.tick (db : DB) : String × DB :=
  (get_current_timestamp db.clock, { db with clock := db.clock + 1 })

def DB.fresh (db : DB) : Nat × DB :=
  (db.nextId, { db with nextId := db.nextId + 1 })

/-- `get_last_question_id` (service lines 24-31): the session's question row
with the greatest `created_at`.  Under the monotone clock that is the last
matching row of the list. -/
def get_last_question_id (db : DB) (session_id : String) : Option Nat :=
  ((db.questions.filter (fun q => q.session_id == session_id)).getLast?).map (fun q => q.qid)

/-- `clear_session_data` (service lines 34-37): `DELETE FROM questions WHERE
session_id = %s`, and the rows hanging off the deleted questions disappear
with them.

Modelled from the spec: the schema DDL is not among the staged source files;
per the spec's data-model invariants, deleting a Question cascades to the
Answers, Hints, Metrics, Entities and Candidate Answers of that question. -/
def clear_session_data (db : DB) (session_id : String) : JSON × DB :=
  let deadQ := fun (q : QuestionRow) => q.session_id == session_id
  let qids := (db.questions.filter deadQ).map (fun q => q.qid)
  let deadHids := ((db.hints.filter (fun h => qids.contains h.question_id)).map (fun h => h.hid))
  (JSON.obj [("cleared", .bool true), ("message", .str "Session wiped.")],
   { db with
      questions := db.questions.filter (fun q => !(deadQ q)),
      answers := db.answers.filter (fun a => !(qids.contains a.question_id)),
      hints := db.hints.filter (fun h => !(qids.contains h.question_id)),
      metrics := db.metrics.filter (fun m => !(deadHids.contains m.hint_id)),
      entities := db.entities.filter (fun e => !(deadHids.contains e.hint_id)),
      candidate_answers := db.candidate_answers.filter (fun c => !(qids.contains c.question_id)) })

/-- `INSERT INTO questions ... RETURNING id`. -/
def insert_question (db : DB) (text : JSON) (session_id : String) : Nat × DB :=
  let (ts, db) := db.tick
  let (qid, db) := db.fresh
  (qid, { db with questions := db.questions ++ [⟨qid, text, session_id, ts⟩] })

/-- `INSERT INTO answers ... RETURNING id` (with or without `model_name`). -/
def insert_answer (db : DB) (question_id : Nat) (text : JSON) (model : Option String) :
    Nat × DB :=
  let (ts, db) := db.tick
  let (aid, db) := db.fresh
  (aid, { db with answers := db.answers ++ [⟨aid, question_id, text, model, ts⟩] })

/-- `INSERT INTO hints ... RETURNING id`. -/
def insert_hint (db : DB) (question_id answer_id : Nat) (text : JSON) : Nat × DB :=
  let (ts, db) := db.tick
  let (hid, db) := db.fresh
  (hid, { db with hints := db.hints ++ [⟨hid, question_id, answer_id, text, ts⟩] })

def insert_metric (db : DB) (hint_id : Nat) (name value : JSON) (meta : Option JSON) :
    Nat × DB :=
  let (mid, db) := db.fresh
  (mid, { db with metrics := db.metrics ++ [⟨mid, hint_id, name, value, meta⟩] })

def insert_entity (db : DB) (hint_id : Nat) (text typ start stop : JSON)
    (meta : Option JSON) : Nat × DB :=
  let (eid, db) := db.fresh
  (eid, { db with entities := db.entities ++ [⟨eid, hint_id, text, typ, start, stop, meta⟩] })

def insert_candidate (db : DB) (question_id : Nat) (text : JSON) (elim : Bool)
    (created updated : JSON) (gt : Bool) : Nat × DB :=
  let (cid, db) := db.fresh
  (cid, { db with candidate_answers :=
      db.candidate_answers ++ [⟨cid, question_id, text, elim, created, updated, gt⟩] })

/-- The fixed default model identifier hard-coded at the generation call
site (service lines 365 and 372). -/
def default_model : String := "meta-llama/Llama-3.3-70B-Instruct-Turbo"

/-- The answer-generation collaborator (`generate_only_answer` from the
generation service, an external dependency of the module): given the
question value and a model identifier it returns generated text, or `none`
when the call raises. -/
def GenOracle : Type := JSON → String → Option String

/-- `insert_qa_core` (service lines 348-376): one question row, then an
answer row — the supplied text when truthy, otherwise the collaborator's
text under the fixed default model, degraded to the sentinel
`"[Error: Generation Failed]"` when the collaborator raises. -/
def insert_qa_core (gen : GenOracle) (db : DB) (session_id : String)
    (q_text a_text : JSON) : (Nat × Nat) × DB :=
  let (qid, db) := insert_question db q_text session_id
  if pyTruthy a_text then
    let (aid, db) := insert_answer db qid a_text none
    ((qid, aid), db)
  else
    let gen_ans : String :=
      match gen q_text default_model with
      | some s => s
      | none => "[Error: Generation Failed]"
    let (aid, db) := insert_answer db qid (.str gen_ans) (some default_model)
    ((qid, aid), db)

/-- The `hint` text the simple import reads off one hint entry
(service line 273): `h.get("hint", "") if isinstance(h, dict) else str(h)`. -/
def simple_hint_text (h : JSON) : JSON :=
  match h with
  | .obj kvs => (lookupField kvs "hint").getD (.str "")
  | other => .str (pyStr other)

/-- The hint loop of `insert_simple_structure` (service lines 271-280). -/
def insert_hints_loop (db : DB) (qid aid : Nat) (hs : List JSON) (count : Nat) : Nat × DB :=
  match hs with
  | [] => (count, db)
  | h :: rest =>
    let h_text := simple_hint_text h
    if pyTruthy h_text then
      let (_, db) := insert_hint db qid aid h_text
      insert_hints_loop db qid aid rest (count + 1)
    else
      insert_hints_loop db qid aid rest count

def mk_simple_result (qid count : Nat) : JSON :=
  JSON.obj [("info", .str s!"Imported: 1 Question, {count} Hints"),
            ("question_id", .num (qid : Rat)),
            ("counts", .obj [("q", .num 1), ("h", .num (count : Rat))])]

/-- A parsed CSV upload: the flat structure `parse_csv_to_structure` builds
(`question`, `answer` and the texts of the `hints` entries, each of which is
a one-field `hint` dict in the source). -/
structure SimpleStruct where
  question : String
  answer : String
  hints : List String
deriving Repr, DecidableEq

/-- `insert_simple_structure` with `from_csv=True` (service lines 238-282,
first branch): the data is the flat dict produced by the CSV parser. -/
def insert_simple_from_csv (gen : GenOracle) (db : DB) (session_id : String)
    (content : SimpleStruct) : Except String (JSON × DB) :=
  if content.question == "" then
    .error "Import failed: Missing question text."
  else
    let ((qid, aid), db) :=
      insert_qa_core gen db session_id (.str content.question) (.str content.answer)
    let (count, db) :=
      insert_hints_loop db qid aid (content.hints.map (fun h => .obj [("hint", .str h)])) 0
    .ok (mk_simple_result qid count, db)

/-- `insert_simple_structure` with `from_csv=False` (service lines 238-282,
second branch): the data is the raw JSON payload with its `instances`
wrapper. -/
def insert_simple_json (gen : GenOracle) (db : DB) (session_id : String)
    (data : JSON) : Except String (JSON × DB) := do
  let content ← pyAttrGet data "instances" (.obj [])
  if !(pyTruthy content) then
    throw "Invalid Simple JSON: Missing 'instances' key."
  else do
    let q_raw ← pyAttrGet content "question" (.obj [])
    let q_text :=
      match q_raw with
      | .obj kvs => (lookupField kvs "question").getD (.str "")
      | other => .str (pyStr other)
    let ans_list ← pyAttrGet content "answers" (.arr [])
    let a_text ←
      if pyTruthy ans_list then do
        let a0 ← pyIndex ans_list 0
        pure (match a0 with
          | .obj kvs => (lookupField kvs "answer").getD (.str "")
          | other => .str (pyStr other))
      else
        pure (JSON.str "")
    let hints_list ← pyAttrGet content "hints" (.arr [])
    if !(pyTruthy q_text) then
      throw "Import failed: Missing question text."
    else do
      let ((qid, aid), db) := insert_qa_core gen db session_id q_text a_text
      let hs ← pyIter hints_list
      let (count, db) := insert_hints_loop db qid aid hs 0
      .ok (mk_simple_result qid count, db)

/-- The candidate loop of `insert_full_backup` (service lines 305-312).
Argument evaluation follows the source: `c["text"]` first, then the
defaulted gets — `get_current_timestamp()` being evaluated (and the clock
ticked) for every candidate, used or not. -/
def insert_candidates_loop (db : DB) (qid : Nat) (cs : List JSON) (count : Nat) :
    Except String (Nat × DB) :=
  match cs with
  | [] => .ok (count, db)
  | c :: rest => do
    let text ← pySubscript c "text"
    let elim ← pyAttrGet c "is_eliminated" (.bool false)
    let (ts, db) := db.tick
    let created ← pyAttrGet c "created_at" (.str ts)
    let updated ← pyAttrGet c "updated_at" .null
    let gt ← pyAttrGet c "is_groundtruth" (.bool false)
    let (_, db) := insert_candidate db qid text (pyTruthy elim) created updated (pyTruthy gt)
    insert_candidates_loop db qid rest (count + 1)

/-- The metric loop of `insert_full_backup` (service lines 325-331); as in
the source the `metadata` truthiness test runs before `m["name"]` is read. -/
def insert_metrics_loop (db : DB) (hid : Nat) (ms : List JSON) (count : Nat) :
    Except String (Nat × DB) :=
  match ms with
  | [] => .ok (count, db)
  | m :: rest => do
    let mdata ← pyAttrGet m "metadata" .null
    let meta := if pyTruthy mdata then some mdata else none
    let name ← pySubscript m "name"
    let value ← pyAttrGet m "value" .null
    let (_, db) := insert_metric db hid name value meta
    insert_metrics_loop db hid rest (count + 1)

/-- The entity loop of `insert_full_backup` (service lines 333-339). -/
def insert_entities_loop (db : DB) (hid : Nat) (es : List JSON) (count : Nat) :
    Except String (Nat × DB) :=
  match es with
  | [] => .ok (count, db)
  | e :: rest => do
    let edata ← pyAttrGet e "metadata" .null
    let meta := if pyTruthy edata then some edata else none
    let text ← pySubscript e "text"
    let typ ← pySubscript e "type"
    let start ← pySubscript e "start"
    let stop ← pySubscript e "end"
    let (_, db) := insert_entity db hid text typ start stop meta
    insert_entities_loop db hid rest (count + 1)

/-- The body of one non-skipped iteration of the hint loop of
`insert_full_backup` (service lines 318-339): insert the hint row, then its
metrics, then its entities, returning the updated metric/entity counts. -/
def insert_full_hint_one (db : DB) (qid aid : Nat) (h h_text : JSON)
    (m_count e_count : Nat) : Except String ((Nat × Nat) × DB) := do
  let (hid, db) := insert_hint db qid aid h_text
  let msJ ← pyAttrGet h "metrics" (.arr [])
  let ms ← pyIter msJ
  let (m_count, db) ← insert_metrics_loop db hid ms m_count
  let esJ ← pyAttrGet h "entities" (.arr [])
  let es ← pyIter esJ
  let (e_count, db) ← insert_entities_loop db hid es e_count
  .ok ((m_count, e_count), db)

/-- The hint loop of `insert_full_backup` (service lines 314-339): entries
with falsy `hint` text are skipped whole; for the rest a hint row is
inserted and its metrics and entities follow. -/
def insert_full_hints_loop (db : DB) (qid aid : Nat) (hs : List JSON)
    (h_count m_count e_count : Nat) : Except String ((Nat × Nat × Nat) × DB) :=
  match hs with
  | [] => .ok ((h_count, m_count, e_count), db)
  | h :: rest => do
    let h_text ← pyAttrGet h "hint" (.str "")
    if !(pyTruthy h_text) then
      insert_full_hints_loop db qid aid rest h_count m_count e_count
    else do
      let ((m_count, e_count), db) ← insert_full_hint_one db qid aid h h_text m_count e_count
      insert_full_hints_loop db qid aid rest (h_count + 1) m_count e_count

def mk_full_result (qid h_count m_count e_count c_count : Nat) : JSON :=
  JSON.obj [("info", .str s!"Restored 1 Questions, {h_count} Hints, {c_count} Candidates"),
            ("question_ids", .arr [.num (qid : Rat)]),
            ("counts", .obj [("q", .num 1), ("h", .num (h_count : Rat)),
                             ("m", .num (m_count : Rat)), ("e", .num (e_count : Rat)),
                             ("c", .num (c_count : Rat))])]

/-- `insert_full_backup` (service lines 285-345). -/
def insert_full_backup (gen : GenOracle) (db : DB) (session_id : String)
    (data : JSON) : Except String (JSON × DB) := do
  let content ← pyAttrGet data "instances" (.obj [])
  let q_raw ← pyAttrGet content "question" (.obj [])
  let q_text :=
    match q_raw with
    | .obj kvs => (lookupField kvs "question").getD (.str "")
    | other => .str (pyStr other)
  let ans_list ← pyAttrGet content "answers" (.arr [])
  let a_text ←
    if pyTruthy ans_list then do
      let a0 ← pyIndex ans_list 0
      match a0 with
      | .obj kvs => pure ((lookupField kvs "answer").getD (.str ""))
      | _ => Except.error "AttributeError: object has no attribute get"
    else
      pure (JSON.str "")
  if !(pyTruthy q_text) then
    throw "Missing question text in backup."
  else do
    let ((qid, aid), db) := insert_qa_core gen db session_id q_text a_text
    let candsJ ← pyAttrGet content "candidates_full" (.arr [])
    let cs ← pyIter candsJ
    let (c_count, db) ← insert_candidates_loop db qid cs 0
    let hintsJ ← pyAttrGet content "hints" (.arr [])
    let hs ← pyIter hintsJ
    let ((h_count, m_count, e_count), db) ← insert_full_hints_loop db qid aid hs 0 0 0
    .ok (mk_full_result qid h_count m_count e_count c_count, db)

/-- `export_session_json` (service lines 40-114).  Field insertion order
follows the source's dict construction; `metrics`, `entities`,
`model_name` and `candidates_full` are added only when non-empty/truthy.
The stored `metadata_json` column holds `json.dumps` of a truthy value, so
the column's `if meta:` test is `Option.isSome` here and `json.loads` on
export undoes `json.dumps` (the external codec is the identity embedding). -/
def export_session_json (db : DB) (session_id : String) (full_export : Bool) : JSON :=
  match get_last_question_id db session_id with
  | none => JSON.obj [("instances", JSON.obj [])]
  | some qid =>
    -- Python `if not qid:`: an id of 0 is falsy and also yields the empty shape
    if qid == 0 then JSON.obj [("instances", JSON.obj [])] else
    let q_text :=
      match (db.questions.filter (fun q => q.qid == qid)).head? with
      | some q => q.text
      | none => JSON.str ""
    let a_row := (db.answers.filter (fun a => a.question_id == qid)).head?
    let a_text := match a_row with | some a => a.answer_text | none => JSON.str ""
    let model_name := match a_row with | some a => a.model_name | none => none
    let hint_objs := (db.hints.filter (fun h => h.question_id == qid)).map (fun h =>
      if full_export then
        let ms := (db.metrics.filter (fun m => m.hint_id == h.hid)).map (fun m =>
          JSON.obj ([("name", m.name), ("value", m.value)] ++
            (match m.metadata_json with | some v => [("metadata", v)] | none => [])))
        let es := (db.entities.filter (fun e => e.hint_id == h.hid)).map (fun e =>
          JSON.obj ([("text", e.entity), ("type", e.ent_type),
                     ("start", e.start_index), ("end", e.end_index)] ++
            (match e.metadata_json with | some v => [("metadata", v)] | none => [])))
        JSON.obj ([("hint", h.hint_text)] ++
          (if ms.isEmpty then [] else [("metrics", JSON.arr ms)]) ++
          (if es.isEmpty then [] else [("entities", JSON.arr es)]))
      else
        JSON.obj [("hint", h.hint_text)])
    let cands := (db.candidate_answers.filter (fun c => c.question_id == qid)).map (fun c =>
      JSON.obj ([("text", c.candidate_text), ("is_eliminated", .bool c.is_eliminated),
                 ("created_at", c.created_at), ("is_groundtruth", .bool c.is_groundtruth)] ++
        (if pyTruthy c.updated_at then [("updated_at", c.updated_at)] else [])))
    let base := [("question", JSON.obj [("question", q_text)]),
                 ("answers", if pyTruthy a_text
                    then JSON.arr [JSON.obj [("answer", a_text)]] else JSON.arr []),
                 ("hints", JSON.arr hint_objs)]
    let extras :=
      if full_export then
        (match model_name with
         | some m => if m == "" then [] else [("model_name", JSON.str m)]
         | none => []) ++
        (if cands.isEmpty then [] else [("candidates_full", JSON.arr cands)])
      else []
    JSON.obj [("instances", JSON.obj (base ++ extras))]

/-- Total `v.get(key, dflt)`.  The CSV export body runs under a blanket
`try/except: pass`, and on the shapes `export_session_json` produces every
`.get` there is on a dict, so the total variant is faithful where it is
used. -/
def jGet (v : JSON) (key : String) (dflt : JSON) : JSON :=
  match v with
  | .obj kvs => (lookupField kvs key).getD dflt
  | _ => dflt

/-- What `csv.writer` puts in a cell: strings unchanged, `None` empty,
anything else via `str`. -/
def csv_cell (v : JSON) : String :=
  match v with
  | .str s => s
  | .null => ""
  | other => pyStr other

/-- One iteration of the hint-writing loop of `export_session_csv_stream`
(service lines 133-135): the row written for one exported hint entry, or
nothing when its text is falsy. -/
def csv_hint_row (h : JSON) : Option (List String) :=
  let h_text :=
    match h with
    | .obj kvs => (lookupField kvs "hint").getD .null
    | other => .str (pyStr other)
  if pyTruthy h_text then some ["hint", csv_cell h_text] else none

/-- The row-writing body of `export_session_csv_stream` (service lines
120-137), at the level of rows: the textual encoding of rows belongs to the
external `csv` module.  `inst` is the `instances` object of a simple
export. -/
def csv_rows_of_instances (inst : JSON) : List (List String) :=
  [["type", "content"]] ++
  (if pyTruthy inst then
    let q := jGet (jGet inst "question" (.obj [])) "question" (.str "")
    let ans := jGet inst "answers" (.arr [])
    let a :=
      match ans with
      | .arr (a0 :: _) => jGet a0 "answer" (.str "")
      | _ => JSON.str ""
    let hs := match jGet inst "hints" (.arr []) with | .arr hs => hs | _ => []
    (if pyTruthy q then [["question", csv_cell q]] else []) ++
    (if pyTruthy a then [["answer", csv_cell a]] else []) ++
    hs.filterMap csv_hint_row
  else [])

/-- `export_session_csv_stream` (service lines 117-140): the simple export
of the session, flattened to `(type, content)` rows. -/
def export_session_csv_rows (db : DB) (session_id : String) : List (List String) :=
  let data := export_session_json db session_id false
  csv_rows_of_instances (jGet data "instances" (.obj []))

/-- Python's `str.strip()`: drop leading and trailing whitespace.  Defined
over the character list (the built-in `String.trim` is byte-position based
and opaque to the kernel). -/
def py_strip (s : String) : String :=
  ⟨((s.data.dropWhile Char.isWhitespace).reverse.dropWhile Char.isWhitespace).reverse⟩

/-- Python's `str.lower()` (ASCII case folding, which covers the header and
`type` tokens the adapter compares). -/
def py_lower (s : String) : String :=
  ⟨s.data.map Char.toLower⟩

/-- Index of the last occurrence of `k` in the (normalized) header: when a
header repeats a name, `csv.DictReader`'s row dict keeps the last column. -/
def lastIndexOf (xs : List String) (k : String) : Option Nat :=
  ((xs.enum.filter (fun p => p.2 == k)).getLast?).map (fun p => p.1)

/-- `row.get(key, "")` on a `csv.DictReader` row: `none` when the key is
not a header name at all (the `""` default is used — modelled by the caller),
`some none` when the row is too short and the reader filled `None` in,
`some (some cell)` otherwise. -/
def rowGet (fieldnames row : List String) (key : String) : Option (Option String) :=
  match lastIndexOf fieldnames key with
  | none => none
  | some i => some (row.get? i)

/-- One `row.get(k, "").strip()` step; `AttributeError` when the cell is
the reader's `None` filler. -/
def rowGetStrip (fieldnames row : List String) (key : String) : Except String String :=
  match rowGet fieldnames row key with
  | none => .ok ""
  | some none => .error "AttributeError: strip on None"
  | some (some s) => .ok (py_strip s)

/-- The row loop of `parse_csv_to_structure` (service lines 226-233). -/
def parse_rows_loop (fieldnames : List String) (rows : List (List String))
    (st : SimpleStruct) : Except String SimpleStruct :=
  match rows with
  | [] => .ok st
  | row :: rest => do
    let rtype0 ← rowGetStrip fieldnames row "type"
    let rtype := py_lower rtype0
    let content ← rowGetStrip fieldnames row "content"
    if content == "" then
      parse_rows_loop fieldnames rest st
    else if rtype == "question" then
      parse_rows_loop fieldnames rest { st with question := content }
    else if rtype == "answer" then
      parse_rows_loop fieldnames rest { st with answer := content }
    else if rtype == "hint" then
      parse_rows_loop fieldnames rest { st with hints := st.hints ++ [content] }
    else
      parse_rows_loop fieldnames rest st

/-- `parse_csv_to_structure` (service lines 216-235), at the level of
records: the first row is the header (normalized to lower case, trimmed),
the rest dispatch on their `type` cell. -/
def parse_csv_to_structure (rows : List (List String)) : Except String SimpleStruct :=
  match rows with
  | [] => .ok ⟨"", "", []⟩
  | header :: dataRows =>
    let fieldnames := header.map (fun f => py_lower (py_strip f))
    parse_rows_loop fieldnames dataRows ⟨"", "", []⟩

/-- An uploaded import: a decoded JSON document (`.json` files) or the
records of a CSV file (`.csv` files, decoded by the external `csv` module). -/
inductive ImportPayload where
  | jsonData (data : JSON) : ImportPayload
  | csvData (rows : List (List String)) : ImportPayload

/-- `result["cleared"] = clear_stats` (service line 169). -/
def attach_cleared (result clearRep : JSON) : JSON :=
  match result with
  | .obj kvs => .obj (kvs ++ [("cleared", clearRep)])
  | other => other

/-- `import_session_data` (service lines 143-175).  Format detection and —
for full backups — structural validation run first, outside the
transaction; then the session is cleared and rows are inserted.  `commit`
makes the new state final; any exception inside the `try` triggers
`conn.rollback()`, which restores the connection's last committed state,
i.e. the state at entry.  (The source's `elif not is_simple_json_format:`
branch is an explicit no-op `pass` and imposes nothing.) -/
def import_session_data (gen : GenOracle) (db : DB) (session_id : String)
    (p : ImportPayload) : Except String JSON × DB :=
  match p with
  | .jsonData data =>
    if is_full_backup_format data then
      match validate_full_import_structure data with
      | .error e => (.error e, db)
      | .ok _ =>
        let (clearRep, db1) := clear_session_data db session_id
        match insert_full_backup gen db1 session_id data with
        | .ok (result, db2) => (.ok (attach_cleared result clearRep), db2)
        | .error e => (.error e, db)
    else
      let (clearRep, db1) := clear_session_data db session_id
      match insert_simple_json gen db1 session_id data with
      | .ok (result, db2) => (.ok (attach_cleared result clearRep), db2)
      | .error e => (.error e, db)
  | .csvData rows =>
    let (clearRep, db1) := clear_session_data db session_id
    match parse_csv_to_structure rows with
    | .error e => (.error e, db)
    | .ok parsed =>
      match insert_simple_from_csv gen db1 session_id parsed with
      | .ok (result, db2) => (.ok (attach_cleared result clearRep), db2)
      | .error e => (.error e, db)

/-!
## Theorems
-/

/-- C7: a session with no question rows exports, without failing, exactly
the empty-instances shape. -/
theorem C7_empty_session_export (db : DB) (session_id : String) (full_export : Bool)
    (h : db.questions.filter (fun q => q.session_id == session_id) = []) :
    export_session_json db session_id full_export = JSON.obj [("instances", JSON.obj [])] := by
  unfold export_session_json get_last_question_id
  rw [h]
  rfl

/-- C7 witness: the empty database at a concrete session. -/
theorem C7_empty_session_export_witness :
    DB.empty.questions.filter (fun q => q.session_id == "s1") = [] ∧
    export_session_json DB.empty "s1" true = JSON.obj [("instances", JSON.obj [])] :=
  ⟨rfl, C7_empty_session_export DB.empty "s1" true rfl⟩

/-- C1: whenever an import call ends in an exception — in particular any
exception raised during the insertion phase, after the session was cleared —
the returned state is exactly the entry state: the clear and every insert
are rolled back and no partially-inserted state is kept. -/
theorem C1_import_error_rolls_back (gen : GenOracle) (db : DB) (session_id : String)
    (p : ImportPayload) (e : String) (db2 : DB)
    (h : import_session_data gen db session_id p = (.error e, db2)) : db2 = db := by
  cases p with
  | jsonData data =>
    simp only [import_session_data] at h
    by_cases hf : is_full_backup_format data = true
    · rw [if_pos hf] at h
      cases hv : validate_full_import_structure data with
      | error msg =>
        rw [hv] at h
        exact (((Prod.mk.injEq ..).mp h).2).symm
      | ok u =>
        rw [hv] at h
        dsimp only at h
        cases hins : insert_full_backup gen (clear_session_data db session_id).2 session_id data with
        | ok pr =>
          rw [hins] at h
          rcases pr with ⟨result, dbn⟩
          simp at h
        | error msg =>
          rw [hins] at h
          exact (((Prod.mk.injEq ..).mp h).2).symm
    · rw [if_neg hf] at h
      cases hins : insert_simple_json gen (clear_session_data db session_id).2 session_id data with
      | ok pr =>
        rw [hins] at h
        rcases pr with ⟨result, dbn⟩
        simp at h
      | error msg =>
        rw [hins] at h
        exact (((Prod.mk.injEq ..).mp h).2).symm
  | csvData rows =>
    simp only [import_session_data] at h
    cases hp : parse_csv_to_structure rows with
    | error msg =>
      rw [hp] at h
      exact (((Prod.mk.injEq ..).mp h).2).symm
    | ok parsed =>
      rw [hp] at h
      dsimp only at h
      cases hins : insert_simple_from_csv gen (clear_session_data db session_id).2 session_id parsed with
      | ok pr =>
        rw [hins] at h
        rcases pr with ⟨result, dbn⟩
        simp at h
      | error msg =>
        rw [hins] at h
        exact (((Prod.mk.injEq ..).mp h).2).symm

/-- A one-question state used by witnesses: the cleared-then-rolled-back
session must come back with this question intact. -/
def dbOneQuestion : DB :=
  { DB.empty with
      questions := [⟨1, .str "old question", "s1", "ts-0"⟩],
      nextId := 2, clock := 1 }

/-- C1 witness: a payload that passes detection but explodes during the
insertion phase (after the clear) leaves the one-question state exactly as
it was. -/
theorem C1_import_error_rolls_back_witness :
    import_session_data (fun _ _ => none) dbOneQuestion "s1" (.jsonData (.arr []))
      = (.error "AttributeError: object has no attribute get: []", dbOneQuestion) ∧
    dbOneQuestion = dbOneQuestion :=
  ⟨rfl, C1_import_error_rolls_back (fun _ _ => none) dbOneQuestion "s1"
    (.jsonData (.arr [])) _ _ rfl⟩

/-- Helper: a question of the session contributes its id to the list of
ids the clear operation deletes by. -/
theorem mem_dead_qids (db : DB) (session_id : String) {q : QuestionRow}
    (hq : q ∈ db.questions) (hs : q.session_id = session_id) :
    ((db.questions.filter (fun r => r.session_id == session_id)).map
      (fun r => r.qid)).contains q.qid = true := by
  simp only [List.contains_iff_exists_mem_beq, List.mem_map, List.mem_filter]
  exact ⟨q.qid, ⟨q, ⟨hq, by simp [hs]⟩, rfl⟩, by simp⟩

/-- Helper: a hint whose question belongs to the session contributes its id
to the list of hint ids the clear operation deletes by. -/
theorem mem_dead_hids (db : DB) (session_id : String) {h : HintRow}
    (hh : h ∈ db.hints)
    (hq : ∃ q ∈ db.questions, q.session_id = session_id ∧ h.question_id = q.qid) :
    ((db.hints.filter (fun r =>
        (((db.questions.filter (fun q => q.session_id == session_id)).map
          (fun q => q.qid)).contains r.question_id))).map
      (fun r => r.hid)).contains h.hid = true := by
  obtain ⟨q, hqmem, hsid, hqid⟩ := hq
  have hinner : ((db.questions.filter (fun r => r.session_id == session_id)).map
      (fun r => r.qid)).contains h.question_id = true := by
    rw [hqid]
    exact mem_dead_qids db session_id hqmem hsid
  simp only [List.contains_iff_exists_mem_beq, List.mem_map, List.mem_filter]
  refine ⟨h.hid, ⟨h, ⟨hh, ?_⟩, rfl⟩, by simp⟩
  simpa only [List.contains_iff_exists_mem_beq, List.mem_map, List.mem_filter] using hinner

/-- C9: `clear` removes exactly the questions owned by the session,
together with (transitively) their dependent answers, hints, metrics,
entities and candidate answers; it is idempotent; and on an already-empty
session it succeeds, the question-level `DELETE` affects zero rows (the
filter over owned questions — the rows the `DELETE` touches — is empty),
and the state is returned untouched with the success report. -/
theorem C9_clear_session_data (db : DB) (session_id : String) :
    (∀ q, q ∈ (clear_session_data db session_id).2.questions ↔
       q ∈ db.questions ∧ q.session_id ≠ session_id)
    ∧ (∀ h ∈ db.hints,
        (∃ q ∈ db.questions, q.session_id = session_id ∧ h.question_id = q.qid) →
        h ∉ (clear_session_data db session_id).2.hints)
    ∧ (∀ a ∈ db.answers,
        (∃ q ∈ db.questions, q.session_id = session_id ∧ a.question_id = q.qid) →
        a ∉ (clear_session_data db session_id).2.answers)
    ∧ (∀ c ∈ db.candidate_answers,
        (∃ q ∈ db.questions, q.session_id = session_id ∧ c.question_id = q.qid) →
        c ∉ (clear_session_data db session_id).2.candidate_answers)
    ∧ (∀ m ∈ db.metrics,
        (∃ h ∈ db.hints, m.hint_id = h.hid ∧
          ∃ q ∈ db.questions, q.session_id = session_id ∧ h.question_id = q.qid) →
        m ∉ (clear_session_data db session_id).2.metrics)
    ∧ (∀ e ∈ db.entities,
        (∃ h ∈ db.hints, e.hint_id = h.hid ∧
          ∃ q ∈ db.questions, q.session_id = session_id ∧ h.question_id = q.qid) →
        e ∉ (clear_session_data db session_id).2.entities)
    ∧ clear_session_data (clear_session_data db session_id).2 session_id
        = clear_session_data db session_id
    ∧ (db.questions.filter (fun q => q.session_id == session_id) = [] →
        clear_session_data db session_id =
          (JSON.obj [("cleared", .bool true), ("message", .str "Session wiped.")], db)) := by
  refine ⟨?_, ?_, ?_, ?_, ?_, ?_, ?_, ?_⟩
  · intro q
    simp [clear_session_data, List.mem_filter]
  · rintro h hmem hex hmem2
    obtain ⟨q, hqmem, hsid, hqid⟩ := hex
    have hp := List.of_mem_filter hmem2
    have hc := mem_dead_qids db session_id hqmem hsid
    simp only [clear_session_data] at hp
    rw [hqid, hc] at hp
    exact absurd hp (by simp)
  · rintro a hmem hex hmem2
    obtain ⟨q, hqmem, hsid, hqid⟩ := hex
    have hp := List.of_mem_filter hmem2
    have hc := mem_dead_qids db session_id hqmem hsid
    simp only [clear_session_data] at hp
    rw [hqid, hc] at hp
    exact absurd hp (by simp)
  · rintro c hmem hex hmem2
    obtain ⟨q, hqmem, hsid, hqid⟩ := hex
    have hp := List.of_mem_filter hmem2
    have hc := mem_dead_qids db session_id hqmem hsid
    simp only [clear_session_data] at hp
    rw [hqid, hc] at hp
    exact absurd hp (by simp)
  · rintro m hmem ⟨h, hh, hhid, hex⟩ hmem2
    have hp := List.of_mem_filter hmem2
    have hc := mem_dead_hids db session_id hh hex
    simp only [clear_session_data] at hp
    rw [hhid, hc] at hp
    exact absurd hp (by simp)
  · rintro e hmem ⟨h, hh, hhid, hex⟩ hmem2
    have hp := List.of_mem_filter hmem2
    have hc := mem_dead_hids db session_id hh hex
    simp only [clear_session_data] at hp
    rw [hhid, hc] at hp
    exact absurd hp (by simp)
  · have hq0 :
        (db.questions.filter (fun q => !(q.session_id == session_id))).filter
          (fun q => q.session_id == session_id) = [] := by
      rw [List.filter_filter]
      refine List.filter_eq_nil_iff.mpr ?_
      intro q _
      by_cases hqq : q.session_id == session_id <;> simp [hqq]
    simp only [clear_session_data]
    rw [hq0]
    simp only [List.map_nil]
    refine Prod.ext rfl ?_
    refine DB.mk.injEq .. ▸ ?_
    refine ⟨?_, ?_, ?_, ?_, ?_, ?_, rfl, rfl⟩
    · rw [List.filter_filter]
      refine List.filter_congr ?_
      intro q _
      by_cases hqq : q.session_id == session_id <;> simp [hqq]
    · exact List.filter_eq_self.mpr (by intro a _; simp)
    · exact List.filter_eq_self.mpr (by intro a _; simp)
    · exact List.filter_eq_self.mpr (by intro a _; simp)
    · exact List.filter_eq_self.mpr (by intro a _; simp)
    · exact List.filter_eq_self.mpr (by intro a _; simp)
  · intro hempty
    simp only [clear_session_data]
    rw [hempty]
    simp only [List.map_nil]
    refine Prod.ext rfl ?_
    refine DB.mk.injEq .. ▸ ?_
    refine ⟨?_, ?_, ?_, ?_, ?_, ?_, rfl, rfl⟩
    · refine List.filter_eq_self.mpr ?_
      intro q hq
      by_cases hqq : q.session_id == session_id
      · exact absurd (List.filter_eq_nil_iff.mp hempty q hq) (by simp [hqq])
      · simp [hqq]
    · exact List.filter_eq_self.mpr (by intro a _; simp)
    · exact List.filter_eq_self.mpr (by intro a _; simp)
    · exact List.filter_eq_self.mpr (by intro a _; simp)
    · exact List.filter_eq_self.mpr (by intro a _; simp)
    · exact List.filter_eq_self.mpr (by intro a _; simp)

/-- C9 witness: clearing the empty database at a concrete session. -/
theorem C9_clear_session_data_witness :
    DB.empty.questions.filter (fun q => q.session_id == "s1") = [] ∧
    clear_session_data DB.empty "s1" =
      (JSON.obj [("cleared", .bool true), ("message", .str "Session wiped.")], DB.empty) :=
  ⟨rfl, (C9_clear_session_data DB.empty "s1").2.2.2.2.2.2.2 rfl⟩

/-- Key presence in an ordered field list, as a boolean. -/
theorem lookupField_isSome (kvs : List (String × JSON)) (k : String) :
    (lookupField kvs k).isSome = kvs.any (fun kv => kv.1 == k) := by
  induction kvs with
  | nil => rfl
  | cons kv rest ih =>
    rcases kv with ⟨k2, v⟩
    by_cases hk : k2 == k
    · simp [lookupField, hk]
    · simp [lookupField, hk, ih]

/-- The Format Detector's `full_backup` condition as the spec words it: a
top-level `instances` object, and either `candidates_full` present in it, or
`hints` a non-empty sequence whose first element has a `metrics` field. -/
def spec_full_backup_condition (data : JSON) : Bool :=
  match data with
  | .obj kvs =>
    match lookupField kvs "instances" with
    | some (.obj instFields) =>
        (lookupField instFields "candidates_full").isSome ||
        (match lookupField instFields "hints" with
         | some (.arr (h0 :: _)) =>
             (match h0 with
              | .obj hf => (lookupField hf "metrics").isSome
              | _ => false)
         | _ => false)
    | _ => false
  | _ => false

/-- The Format Detector's `simple` condition as the spec words it: the
`instances` key is present at the top level. -/
def spec_simple_condition (data : JSON) : Bool :=
  match data with
  | .obj kvs => (lookupField kvs "instances").isSome
  | _ => false

/-- Payloads on which presence or absence of a field is meaningful in the
spec's vocabulary: the payload is an object, its `instances` member (when
present) is an object, and that object's `hints` member (when present) is
an array of objects. -/
def standard_payload (data : JSON) : Prop :=
  match data with
  | .obj kvs =>
      match lookupField kvs "instances" with
      | some (.obj instFields) =>
          match lookupField instFields "hints" with
          | some (.arr hs) => ∀ h ∈ hs, ∃ f, h = JSON.obj f
          | some _ => False
          | none => True
      | some _ => False
      | none => True
  | _ => False

/-- C4 counterexample: on the payload whose `instances.hints` first element
is the plain string `"metrics"`, the detector returns `full_backup` (the
source's `"metrics" in inst["hints"][0]` is Python's substring test on a
string element), although the element has no `metrics` field, so the
claim's condition classifies the payload as simple. -/
theorem C4_counterexample :
    is_full_backup_format (.obj [("instances", .obj [("hints", .arr [.str "metrics"])])])
      = true ∧
    spec_full_backup_condition
      (.obj [("instances", .obj [("hints", .arr [.str "metrics"])])]) = false ∧
    spec_simple_condition
      (.obj [("instances", .obj [("hints", .arr [.str "metrics"])])]) = true := by
  refine ⟨by decide, rfl, rfl⟩

/-- C4 (amended): on standard payloads — object payload, object `instances`
value, `hints` (when present) an array of objects — the detector's
`full_backup` answer is exactly the spec's condition, and (when the payload
is not a full backup) its `simple` answer is exactly presence of the
`instances` key.  Both detector functions are pure Lean functions of the
payload, so detection cannot mutate it. -/
theorem C4_format_detector (data : JSON) (hstd : standard_payload data) :
    is_full_backup_format data = spec_full_backup_condition data ∧
    is_simple_json_format data = spec_simple_condition data := by
  cases data with
  | obj kvs =>
    simp only [standard_payload] at hstd
    refine ⟨?_, ?_⟩
    · cases hl : lookupField kvs "instances" with
      | none =>
        have hany : (kvs.any (fun kv => kv.1 == "instances")) = false := by
          rw [← lookupField_isSome, hl]; rfl
        simp [is_full_backup_format, spec_full_backup_condition, pyContainsStr,
          hany, hl, Bind.bind, Option.bind]
      | some inst =>
        rw [hl] at hstd
        have hany : (kvs.any (fun kv => kv.1 == "instances")) = true := by
          rw [← lookupField_isSome, hl]; rfl
        cases inst with
        | obj instFields =>
          dsimp only at hstd
          simp only [is_full_backup_format, spec_full_backup_condition,
            pyContainsStr, pyGetItemStr, Bind.bind, Option.bind, hany, hl,
            Bool.not_true, Bool.false_eq_true, if_false]
          cases hc : (lookupField instFields "candidates_full").isSome with
          | true =>
            have hany2 : (instFields.any (fun kv => kv.1 == "candidates_full")) = true := by
              rw [← lookupField_isSome]; exact hc
            simp [hany2, hc]
          | false =>
            have hany2 : (instFields.any (fun kv => kv.1 == "candidates_full")) = false := by
              rw [← lookupField_isSome]; exact hc
            simp only [hany2, hc, Bool.false_eq_true, if_false, Bool.false_or]
            cases hh : lookupField instFields "hints" with
            | none =>
              have hany3 : (instFields.any (fun kv => kv.1 == "hints")) = false := by
                rw [← lookupField_isSome, hh]; rfl
              simp [hany3]
            | some hv =>
              have hany3 : (instFields.any (fun kv => kv.1 == "hints")) = true := by
                rw [← lookupField_isSome, hh]; rfl
              rw [hh] at hstd
              cases hv with
              | arr hs =>
                dsimp only at hstd
                simp only [hany3, Bool.not_true, Bool.false_eq_true, if_false, hh]
                cases hs with
                | nil => simp [pyTruthy]
                | cons h0 rest =>
                  obtain ⟨f, hf⟩ := hstd h0 (by simp)
                  subst hf
                  simp [pyTruthy, pyGetItemIdx, pyContainsStr, lookupField_isSome]
              | null => exact absurd hstd (by simp)
              | bool b => exact absurd hstd (by simp)
              | num q => exact absurd hstd (by simp)
              | str s => exact absurd hstd (by simp)
              | obj f => exact absurd hstd (by simp)
        | null => exact absurd hstd (by simp)
        | bool b => exact absurd hstd (by simp)
        | num q => exact absurd hstd (by simp)
        | str s => exact absurd hstd (by simp)
        | arr xs => exact absurd hstd (by simp)
    · unfold is_simple_json_format spec_simple_condition
      simp [pyContainsStr, lookupField_isSome]
  | null => exact absurd hstd (by simp [standard_payload])
  | bool b => exact absurd hstd (by simp [standard_payload])
  | num q => exact absurd hstd (by simp [standard_payload])
  | str s => exact absurd hstd (by simp [standard_payload])
  | arr xs => exact absurd hstd (by simp [standard_payload])

/-- C4 witness: a concrete standard payload (object `instances` with two
candidate entries) on which the detector answers `full_backup`, agreeing
with the spec condition. -/
theorem C4_format_detector_witness :
    standard_payload (.obj [("instances", .obj [("candidates_full",
      .arr [.obj [("text", .str "a")], .obj [("text", .str "b")]])])]) ∧
    is_full_backup_format (.obj [("instances", .obj [("candidates_full",
      .arr [.obj [("text", .str "a")], .obj [("text", .str "b")]])])]) =
      spec_full_backup_condition (.obj [("instances", .obj [("candidates_full",
      .arr [.obj [("text", .str "a")], .obj [("text", .str "b")]])])]) :=
  ⟨by simp [standard_payload, lookupField],
   (C4_format_detector _ (by simp [standard_payload, lookupField])).1⟩

/-- The `is_groundtruth` flags the validator reads off the candidate list. -/
def gt_flags (cs : List JSON) : List JSON :=
  cs.map (fun c => jGet c "is_groundtruth" .null)

/-- The number of candidate entries whose `is_groundtruth` is exactly the
boolean `true` (Python's `is True`). -/
def gt_count_of (cs : List JSON) : Nat :=
  ((gt_flags cs).filter (fun f => f == JSON.bool true)).length

/-- Reading `is_groundtruth` off a list of candidate objects never raises. -/
theorem mapM_gt_flags (cs : List JSON) (hobj : ∀ c ∈ cs, ∃ f, c = JSON.obj f) :
    cs.mapM (fun c => pyAttrGet c "is_groundtruth" .null) = .ok (gt_flags cs) := by
  induction cs with
  | nil => rfl
  | cons c rest ih =>
    obtain ⟨f, hf⟩ := hobj c (by simp)
    subst hf
    rw [List.mapM_cons, ih (fun c hc => hobj c (by simp [hc]))]
    simp [pyAttrGet, gt_flags, jGet, bind, Except.bind, pure, Except.pure]

/-- C3: for a payload classified `full_backup` (an object with an object
`instances` member), the structural validator runs before the session is
cleared or any row is written — a validation error returns as such and
leaves the state untouched; the validator raises the candidate-count error
whenever `candidates_full` is absent or holds fewer than 2 entries; with
≥ 2 object entries whose ground-truth count differs from 1 it raises the
error naming the observed count; and a list of 2 candidates with exactly
one ground truth passes. -/
theorem C3_full_backup_validator (data : JSON) (kvs instFields : List (String × JSON))
    (hdata : data = .obj kvs)
    (hinst : lookupField kvs "instances" = some (.obj instFields))
    (hne : instFields ≠ []) :
    (∀ (gen : GenOracle) (db : DB) (session_id e : String),
      is_full_backup_format data = true →
      validate_full_import_structure data = .error e →
      import_session_data gen db session_id (.jsonData data) = (.error e, db))
    ∧ (lookupField instFields "candidates_full" = none →
        validate_full_import_structure data =
          .error "Full Backup Error: Must have at least 2 candidates in 'candidates_full'.")
    ∧ (∀ cs, lookupField instFields "candidates_full" = some (.arr cs) → cs.length < 2 →
        validate_full_import_structure data =
          .error "Full Backup Error: Must have at least 2 candidates in 'candidates_full'.")
    ∧ (∀ cs, lookupField instFields "candidates_full" = some (.arr cs) → 2 ≤ cs.length →
        (∀ c ∈ cs, ∃ f, c = JSON.obj f) → gt_count_of cs ≠ 1 →
        validate_full_import_structure data =
          .error s!"Full Backup Error: Candidates must have exactly one item with 'is_groundtruth': true. Found {gt_count_of cs}.")
    ∧ (∀ cs, lookupField instFields "candidates_full" = some (.arr cs) → cs.length = 2 →
        (∀ c ∈ cs, ∃ f, c = JSON.obj f) → gt_count_of cs = 1 →
        validate_full_import_structure data = .ok ()) := by
  subst hdata
  have hInstOk : pyAttrGet (JSON.obj kvs) "instances" (.obj []) = .ok (.obj instFields) := by
    simp [pyAttrGet, hinst]
  have hInstTruthy : pyTruthy (JSON.obj instFields) = true := by
    cases instFields with
    | nil => exact absurd rfl hne
    | cons a l => rfl
  refine ⟨?_, ?_, ?_, ?_, ?_⟩
  · intro gen db session_id e hfull hval
    simp only [import_session_data, hfull, if_true, hval]
  · intro hnone
    unfold validate_full_import_structure
    have h1 : pyAttrGet (JSON.obj instFields) "candidates_full" (.arr []) = .ok (.arr []) := by
      simp [pyAttrGet, hnone]
    simp only [hInstOk, bind, Except.bind, hInstTruthy, Bool.not_true, Bool.false_eq_true,
      if_false, h1]
    rfl
  · intro cs hsome hlen
    unfold validate_full_import_structure
    have h1 : pyAttrGet (JSON.obj instFields) "candidates_full" (.arr []) = .ok (.arr cs) := by
      simp [pyAttrGet, hsome]
    cases cs with
    | nil =>
      simp only [hInstOk, bind, Except.bind, hInstTruthy, Bool.not_true, Bool.false_eq_true,
        if_false, h1]
      rfl
    | cons c rest =>
      have hT2 : pyTruthy (JSON.arr (c :: rest)) = true := rfl
      simp only [hInstOk, bind, Except.bind, hInstTruthy, hT2, Bool.not_true,
        Bool.false_eq_true, if_false, h1, pyLen]
      rw [if_pos hlen]
      rfl
  · intro cs hsome hlen hobj hgt
    unfold validate_full_import_structure
    have hcons : cs.isEmpty = false := by
      cases cs with
      | nil => simp at hlen
      | cons c rest => rfl
    have h1 : pyAttrGet (JSON.obj instFields) "candidates_full" (.arr []) = .ok (.arr cs) := by
      simp [pyAttrGet, hsome]
    have h3 : ¬(cs.length < 2) := by omega
    have h4 : ((gt_flags cs).filter (fun f => f == JSON.bool true)).length ≠ 1 := by
      simpa [gt_count_of] using hgt
    have hT2 : pyTruthy (JSON.arr cs) = true := by simp [pyTruthy, hcons]
    simp only [hInstOk, bind, Except.bind, hInstTruthy, hT2, Bool.not_true,
      Bool.false_eq_true, if_false, h1, pyLen, pyIter]
    rw [if_neg h3]
    rw [mapM_gt_flags cs hobj]
    simp only [gt_count_of, ite_not, if_neg h4]
    rfl
  · intro cs hsome hlen hobj hgt
    unfold validate_full_import_structure
    have hcons : cs.isEmpty = false := by
      cases cs with
      | nil => simp at hlen
      | cons c rest => rfl
    have h1 : pyAttrGet (JSON.obj instFields) "candidates_full" (.arr []) = .ok (.arr cs) := by
      simp [pyAttrGet, hsome]
    have h3 : ¬(cs.length < 2) := by omega
    have h4 : ((gt_flags cs).filter (fun f => f == JSON.bool true)).length = 1 := by
      simpa [gt_count_of] using hgt
    have hT2 : pyTruthy (JSON.arr cs) = true := by simp [pyTruthy, hcons]
    simp only [hInstOk, bind, Except.bind, hInstTruthy, hT2, Bool.not_true,
      Bool.false_eq_true, if_false, h1, pyLen, pyIter]
    rw [if_neg h3]
    rw [mapM_gt_flags cs hobj]
    simp only [gt_count_of, ite_not, if_pos h4]
    rfl

/-- C3 witness: a concrete full-backup payload with 2 candidates and
exactly one ground truth passes the validator. -/
theorem C3_full_backup_validator_witness :
    validate_full_import_structure (.obj [("instances", .obj [("candidates_full",
      .arr [.obj [("text", .str "a"), ("is_groundtruth", .bool true)],
            .obj [("text", .str "b")]])])]) = .ok () :=
  (C3_full_backup_validator
    (.obj [("instances", .obj [("candidates_full",
      .arr [.obj [("text", .str "a"), ("is_groundtruth", .bool true)],
            .obj [("text", .str "b")]])])])
    [("instances", .obj [("candidates_full",
      .arr [.obj [("text", .str "a"), ("is_groundtruth", .bool true)],
            .obj [("text", .str "b")]])])]
    [("candidates_full",
      .arr [.obj [("text", .str "a"), ("is_groundtruth", .bool true)],
            .obj [("text", .str "b")]])]
    rfl rfl (by simp)).2.2.2.2
    [.obj [("text", .str "a"), ("is_groundtruth", .bool true)], .obj [("text", .str "b")]]
    rfl rfl
    (by intro c hc
        simp only [List.mem_cons, List.not_mem_nil, or_false] at hc
        rcases hc with h | h
        · exact ⟨_, h⟩
        · exact ⟨_, h⟩)
    (by decide)

/-- Replace the value stored under an existing key, keeping field order. -/
def set_field : List (String × JSON) → String → JSON → List (String × JSON)
  | [], _, _ => []
  | (k, v) :: rest, key, nv =>
      if k == key then (k, nv) :: rest else (k, v) :: set_field rest key nv

theorem lookup_set_field_self (fs : List (String × JSON)) (key : String) (nv : JSON)
    (h : (lookupField fs key).isSome) :
    lookupField (set_field fs key nv) key = some nv := by
  induction fs with
  | nil => simp [lookupField] at h
  | cons kv rest ih =>
    rcases kv with ⟨k, v⟩
    by_cases hk : k == key
    · simp [set_field, lookupField, hk]
    · simp only [lookupField, hk, Bool.false_eq_true, if_false] at h
      simp [set_field, lookupField, hk, ih h]

theorem lookup_set_field_other (fs : List (String × JSON)) (key : String) (nv : JSON)
    (key2 : String) (h : key2 ≠ key) :
    lookupField (set_field fs key nv) key2 = lookupField fs key2 := by
  induction fs with
  | nil => rfl
  | cons kv rest ih =>
    rcases kv with ⟨k, v⟩
    by_cases hk : k == key
    · have hk2 : (k == key2) = false := by
        simp only [beq_iff_eq] at hk
        subst hk
        exact beq_eq_false_iff_ne.mpr (Ne.symm h)
      simp [set_field, lookupField, hk, hk2]
    · simp only [set_field, hk, Bool.false_eq_true, if_false]
      by_cases hk2 : k == key2
      · simp [lookupField, hk2]
      · simp [lookupField, hk2, ih]

/-- Hint entries the full-backup importer keeps: the `hint` field is
present and not the empty string. -/
def keeps_hint (h : JSON) : Bool :=
  !(jGet h "hint" (.str "") == JSON.str "")

/-- The full-backup hint loop ignores entries with empty or missing `hint`
text entirely: running it on the hint list equals running it on the list
with those entries dropped (no hint row, no metrics, no entities, no count
contribution from a dropped entry; the rest keep their order). -/
theorem insert_full_hints_loop_filter (db : DB) (qid aid : Nat)
    (hs : List JSON) (h_count m_count e_count : Nat)
    (hstr : ∀ h ∈ hs, ∃ f, h = JSON.obj f ∧
      (lookupField f "hint" = none ∨ ∃ s, lookupField f "hint" = some (JSON.str s))) :
    insert_full_hints_loop db qid aid hs h_count m_count e_count =
    insert_full_hints_loop db qid aid (hs.filter keeps_hint) h_count m_count e_count := by
  induction hs generalizing db h_count m_count e_count with
  | nil => rfl
  | cons h rest ih =>
    obtain ⟨f, hf, hfield⟩ := hstr h (by simp)
    subst hf
    have hrest : ∀ h ∈ rest, ∃ f, h = JSON.obj f ∧
        (lookupField f "hint" = none ∨ ∃ s, lookupField f "hint" = some (JSON.str s)) :=
      fun h hm => hstr h (by simp [hm])
    have hget : pyAttrGet (JSON.obj f) "hint" (.str "") =
        .ok (jGet (JSON.obj f) "hint" (.str "")) := by
      simp [pyAttrGet, jGet]
    have hj : ∃ s, jGet (JSON.obj f) "hint" (.str "") = JSON.str s := by
      cases hfield with
      | inl hnone => exact ⟨"", by simp [jGet, hnone]⟩
      | inr hsome => obtain ⟨s, hs2⟩ := hsome; exact ⟨s, by simp [jGet, hs2]⟩
    obtain ⟨s, hjs⟩ := hj
    by_cases hempty : s = ""
    · subst hempty
      have hk : keeps_hint (JSON.obj f) = false := by simp [keeps_hint, hjs]
      have htr : pyTruthy (jGet (JSON.obj f) "hint" (.str "")) = false := by
        rw [hjs]; rfl
      rw [insert_full_hints_loop.eq_2, hget, List.filter_cons]
      simp only [bind, Except.bind, htr, Bool.not_false, if_true, hk,
        Bool.false_eq_true, if_false]
      exact ih db h_count m_count e_count hrest
    · have hk : keeps_hint (JSON.obj f) = true := by simp [keeps_hint, hjs, hempty]
      have htr : pyTruthy (jGet (JSON.obj f) "hint" (.str "")) = true := by
        rw [hjs]
        simpa [pyTruthy] using hempty
      rw [List.filter_cons]
      simp only [hk, if_true]
      rw [insert_full_hints_loop.eq_2, insert_full_hints_loop.eq_2, hget]
      simp only [bind, Except.bind, htr, Bool.not_true, Bool.false_eq_true, if_false]
      cases hone : insert_full_hint_one db qid aid (JSON.obj f)
          (jGet (JSON.obj f) "hint" (.str "")) m_count e_count with
      | error e0 => rfl
      | ok pr =>
        rcases pr with ⟨⟨m2, e2⟩, db2⟩
        exact ih db2 (h_count + 1) m2 e2 hrest

/-- C10: in a full-backup insertion, hint entries with empty or missing
`hint` text are skipped entirely — the whole import behaves exactly as if
those entries were absent from the payload: no hint row, no metric or
entity rows for them, counts that exclude them and their dependents, and
the remaining hints in unchanged relative order. -/
theorem C10_full_backup_skips_empty_hints
    (gen : GenOracle) (db : DB) (session_id : String)
    (kvs instFields : List (String × JSON)) (hs : List JSON)
    (hinst : lookupField kvs "instances" = some (.obj instFields))
    (hhints : lookupField instFields "hints" = some (.arr hs))
    (hstr : ∀ h ∈ hs, ∃ f, h = JSON.obj f ∧
      (lookupField f "hint" = none ∨ ∃ s, lookupField f "hint" = some (JSON.str s))) :
    insert_full_backup gen db session_id (.obj kvs) =
    insert_full_backup gen db session_id
      (.obj (set_field kvs "instances"
        (.obj (set_field instFields "hints" (.arr (hs.filter keeps_hint)))))) := by
  have hA : pyAttrGet (.obj kvs) "instances" (.obj []) = .ok (.obj instFields) := by
    simp [pyAttrGet, hinst]
  have hA2 : pyAttrGet
      (.obj (set_field kvs "instances"
        (.obj (set_field instFields "hints" (.arr (hs.filter keeps_hint))))))
      "instances" (.obj []) =
      .ok (.obj (set_field instFields "hints" (.arr (hs.filter keeps_hint)))) := by
    simp only [pyAttrGet]
    rw [lookup_set_field_self kvs "instances" _ (by rw [hinst]; rfl)]
    rfl
  have hother : ∀ key2, key2 ≠ "hints" →
      lookupField (set_field instFields "hints" (.arr (hs.filter keeps_hint))) key2 =
      lookupField instFields key2 :=
    fun key2 hne => lookup_set_field_other instFields "hints" _ key2 hne
  have hhints2 : lookupField (set_field instFields "hints" (.arr (hs.filter keeps_hint)))
      "hints" = some (.arr (hs.filter keeps_hint)) :=
    lookup_set_field_self instFields "hints" _ (by rw [hhints]; rfl)
  unfold insert_full_backup
  rw [hA, hA2]
  have hloop : ∀ (db2 : DB) (qid aid hc mc ec : Nat),
      insert_full_hints_loop db2 qid aid hs hc mc ec =
      insert_full_hints_loop db2 qid aid (hs.filter keeps_hint) hc mc ec :=
    fun db2 qid aid hc mc ec =>
      insert_full_hints_loop_filter db2 qid aid hs hc mc ec hstr
  simp only [bind, Except.bind, pyAttrGet, hother "question" (by decide),
    hother "answers" (by decide), hother "candidates_full" (by decide), hhints, hhints2,
    Option.getD_some, pyIter, hloop]

/-- C10 witness: a concrete full backup whose hint entries are an
empty-text hint, a real hint and a hint-less object imports exactly like
the payload holding only the real hint. -/
theorem C10_full_backup_skips_empty_hints_witness :
    insert_full_backup (fun _ _ => none) DB.empty "s1"
      (.obj [("instances", .obj [("question", .obj [("question", .str "Q")]),
        ("answers", .arr [.obj [("answer", .str "A")]]),
        ("hints", .arr [.obj [("hint", .str "")], .obj [("hint", .str "h1")], .obj []])])]) =
    insert_full_backup (fun _ _ => none) DB.empty "s1"
      (.obj (set_field [("instances", .obj [("question", .obj [("question", .str "Q")]),
        ("answers", .arr [.obj [("answer", .str "A")]]),
        ("hints", .arr [.obj [("hint", .str "")], .obj [("hint", .str "h1")], .obj []])])]
        "instances"
        (.obj (set_field [("question", .obj [("question", .str "Q")]),
          ("answers", .arr [.obj [("answer", .str "A")]]),
          ("hints", .arr [.obj [("hint", .str "")], .obj [("hint", .str "h1")], .obj []])]
          "hints"
          (.arr ([JSON.obj [("hint", .str "")], .obj [("hint", .str "h1")],
            .obj []].filter keeps_hint)))))) :=
  C10_full_backup_skips_empty_hints (fun _ _ => none) DB.empty "s1"
    [("instances", .obj [("question", .obj [("question", .str "Q")]),
      ("answers", .arr [.obj [("answer", .str "A")]]),
      ("hints", .arr [.obj [("hint", .str "")], .obj [("hint", .str "h1")], .obj []])])]
    [("question", .obj [("question", .str "Q")]),
      ("answers", .arr [.obj [("answer", .str "A")]]),
      ("hints", .arr [.obj [("hint", .str "")], .obj [("hint", .str "h1")], .obj []])]
    [.obj [("hint", .str "")], .obj [("hint", .str "h1")], .obj []]
    rfl rfl
    (by intro h hm
        simp only [List.mem_cons, List.not_mem_nil, or_false] at hm
        rcases hm with rfl | rfl | rfl
        · exact ⟨_, rfl, .inr ⟨"", rfl⟩⟩
        · exact ⟨_, rfl, .inr ⟨"h1", rfl⟩⟩
        · exact ⟨_, rfl, .inl rfl⟩)

/-- C5: when the structure supplies no answer text, the importer calls the
answer-generation collaborator — at the fixed default model identifier, the
only point at which the collaborator can influence the import — and a
raised generation call does not abort the import: the sentinel placeholder
string is stored as the answer text, under the default model name, and the
transaction runs to a committed, successful completion. -/
theorem C5_answer_synthesis_on_failure (gen : GenOracle) (db : DB)
    (session_id : String) (q : String)
    (hq : q ≠ "")
    (hfail : gen (.str q) default_model = none) :
    (import_session_data gen db session_id (.jsonData
        (.obj [("instances", .obj [("question", .obj [("question", .str q)]),
          ("answers", .arr []), ("hints", .arr [])])]))).1 =
      .ok (attach_cleared (mk_simple_result db.nextId 0) (clear_session_data db session_id).1)
    ∧ (import_session_data gen db session_id (.jsonData
        (.obj [("instances", .obj [("question", .obj [("question", .str q)]),
          ("answers", .arr []), ("hints", .arr [])])]))).2.answers =
        (clear_session_data db session_id).2.answers ++
          [⟨db.nextId + 1, db.nextId, .str "[Error: Generation Failed]",
            some default_model, get_current_timestamp (db.clock + 1)⟩]
    ∧ (∀ gen2 : GenOracle, gen2 (.str q) default_model = gen (.str q) default_model →
        import_session_data gen2 db session_id (.jsonData
          (.obj [("instances", .obj [("question", .obj [("question", .str q)]),
            ("answers", .arr []), ("hints", .arr [])])])) =
        import_session_data gen db session_id (.jsonData
          (.obj [("instances", .obj [("question", .obj [("question", .str q)]),
            ("answers", .arr []), ("hints", .arr [])])]))) := by
  have hqt : pyTruthy (JSON.str q) = true := by simpa [pyTruthy] using hq
  have hclass : is_full_backup_format
      (.obj [("instances", .obj [("question", .obj [("question", .str q)]),
        ("answers", .arr []), ("hints", .arr [])])]) = false := rfl
  have hins : ∀ (g : GenOracle), g (.str q) default_model = none →
      ∀ (d : DB) (sid : String),
      insert_simple_json g d sid
        (.obj [("instances", .obj [("question", .obj [("question", .str q)]),
          ("answers", .arr []), ("hints", .arr [])])]) =
      .ok (mk_simple_result d.nextId 0,
        { d with
            questions := d.questions ++
              [⟨d.nextId, .str q, sid, get_current_timestamp d.clock⟩],
            answers := d.answers ++
              [⟨d.nextId + 1, d.nextId, .str "[Error: Generation Failed]",
                some default_model, get_current_timestamp (d.clock + 1)⟩],
            nextId := d.nextId + 2, clock := d.clock + 2 }) := by
    intro g hg d sid
    have hc : insert_qa_core g d sid (JSON.str q) (JSON.str "") =
        ((d.nextId, d.nextId + 1),
          { d with
              questions := d.questions ++
                [⟨d.nextId, .str q, sid, get_current_timestamp d.clock⟩],
              answers := d.answers ++
                [⟨d.nextId + 1, d.nextId, .str "[Error: Generation Failed]",
                  some default_model, get_current_timestamp (d.clock + 1)⟩],
              nextId := d.nextId + 2, clock := d.clock + 2 }) := by
      simp [insert_qa_core, insert_question, insert_answer, DB.tick, DB.fresh, hg, pyTruthy]
    simp only [insert_simple_json,
      show pyAttrGet (.obj [("instances", .obj [("question", .obj [("question", .str q)]),
        ("answers", .arr []), ("hints", .arr [])])]) "instances" (.obj []) =
        .ok (.obj [("question", .obj [("question", .str q)]),
          ("answers", .arr []), ("hints", .arr [])]) from rfl,
      show pyAttrGet (.obj [("question", .obj [("question", .str q)]),
        ("answers", .arr []), ("hints", .arr [])]) "question" (.obj []) =
        .ok (.obj [("question", .str q)]) from rfl,
      show pyAttrGet (.obj [("question", .obj [("question", .str q)]),
        ("answers", .arr []), ("hints", .arr [])]) "answers" (.arr []) =
        .ok (.arr []) from rfl,
      show pyAttrGet (.obj [("question", .obj [("question", .str q)]),
        ("answers", .arr []), ("hints", .arr [])]) "hints" (.arr []) =
        .ok (.arr []) from rfl,
      bind, Except.bind]
    simp only [show pyTruthy (JSON.obj [("question", JSON.obj [("question", JSON.str q)]),
        ("answers", JSON.arr []), ("hints", JSON.arr [])]) = true from rfl,
      show pyTruthy (JSON.arr []) = false from rfl,
      show lookupField [("question", JSON.str q)] "question" = some (JSON.str q) from rfl,
      Option.getD_some, hqt,
      Bool.not_true, Bool.not_false, Bool.false_eq_true, if_false, if_true]
    simp only [pure, Except.pure, bind, Except.bind]
    simp only [hc]
    rfl
  have hnext : (clear_session_data db session_id).2.nextId = db.nextId := rfl
  have hclock : (clear_session_data db session_id).2.clock = db.clock := rfl
  refine ⟨?_, ?_, ?_⟩
  · simp only [import_session_data, hclass, Bool.false_eq_true, if_false,
      hins gen hfail (clear_session_data db session_id).2 session_id, hnext]
  · simp only [import_session_data, hclass, Bool.false_eq_true, if_false,
      hins gen hfail (clear_session_data db session_id).2 session_id, hnext, hclock]
  · intro gen2 hg2
    rw [hfail] at hg2
    simp only [import_session_data, hclass, Bool.false_eq_true, if_false,
      hins gen hfail (clear_session_data db session_id).2 session_id,
      hins gen2 hg2 (clear_session_data db session_id).2 session_id]

/-- C5 witness: a concrete no-answer import with an always-raising
collaborator commits and stores the sentinel answer. -/
theorem C5_answer_synthesis_on_failure_witness :
    ("What?" ≠ "" ∧ (fun (_ : JSON) (_ : String) => (none : Option String))
        (.str "What?") default_model = none)
    ∧ (import_session_data (fun _ _ => none) DB.empty "s1" (.jsonData
        (.obj [("instances", .obj [("question", .obj [("question", .str "What?")]),
          ("answers", .arr []), ("hints", .arr [])])]))).1 =
      .ok (attach_cleared (mk_simple_result DB.empty.nextId 0)
        (clear_session_data DB.empty "s1").1) :=
  ⟨⟨by decide, rfl⟩,
   (C5_answer_synthesis_on_failure (fun _ _ => none) DB.empty "s1" "What?"
     (by decide) rfl).1⟩

/-- A session whose single question has an answer row with empty text. -/
def dbEmptyAnswer : DB :=
  { DB.empty with
      questions := [⟨1, .str "Q", "s1", "ts-0"⟩],
      answers := [⟨2, 1, .str "", none, "ts-1"⟩],
      nextId := 3, clock := 2 }

/-- C8 counterexample: an answer row exists for the latest question, yet
the export's `answers` array is empty, because the code keys the one-element
array on the truthiness of the answer text, not on the row's existence. -/
theorem C8_counterexample :
    dbEmptyAnswer.answers.filter (fun a => a.question_id == 1) ≠ [] ∧
    get_last_question_id dbEmptyAnswer "s1" = some 1 ∧
    jGet (jGet (export_session_json dbEmptyAnswer "s1" true) "instances" (.obj []))
      "answers" .null = .arr [] := by
  refine ⟨by decide, rfl, rfl⟩

/-- C8 (amended): for every non-empty session, the export carries
`question.question` with the latest question's text, and a one-element
`answers` array exactly when the first answer row of that question exists
with truthy (non-empty) text — an existing answer row with empty text
yields the empty array. -/
theorem C8_nonempty_session_export (db : DB) (session_id : String) (q : QuestionRow)
    (full_export : Bool)
    (hlast : get_last_question_id db session_id = some q.qid)
    (hqid : q.qid ≠ 0)
    (hrow : (db.questions.filter (fun r => r.qid == q.qid)).head? = some q) :
    jGet (jGet (export_session_json db session_id full_export) "instances" (.obj []))
        "question" .null = .obj [("question", q.text)]
    ∧ jGet (jGet (export_session_json db session_id full_export) "instances" (.obj []))
        "answers" .null =
      (match (db.answers.filter (fun a => a.question_id == q.qid)).head? with
       | some a => if pyTruthy a.answer_text then .arr [.obj [("answer", a.answer_text)]]
                   else .arr []
       | none => .arr []) := by
  have hne : (q.qid == 0) = false := beq_eq_false_iff_ne.mpr hqid
  unfold export_session_json
  rw [hlast]
  simp only [hne, Bool.false_eq_true, if_false, hrow]
  cases han : (db.answers.filter (fun a => a.question_id == q.qid)).head? with
  | none =>
    constructor
    · cases full_export <;> simp [jGet, lookupField]
    · cases full_export <;> simp [jGet, lookupField, pyTruthy]
  | some a =>
    by_cases hat : pyTruthy a.answer_text = true
    · constructor
      · cases full_export <;> simp [jGet, lookupField]
      · cases full_export <;> simp [jGet, lookupField, hat]
    · rw [Bool.not_eq_true] at hat
      constructor
      · cases full_export <;> simp [jGet, lookupField]
      · cases full_export <;> simp [jGet, lookupField, hat]

/-- C8 witness: a concrete session with a non-empty answer exports the
one-element answers array. -/
theorem C8_nonempty_session_export_witness :
    get_last_question_id dbOneQuestion "s1" = some 1 ∧
    jGet (jGet (export_session_json dbOneQuestion "s1" true) "instances" (.obj []))
      "question" .null = .obj [("question", .str "old question")] := by
  refine ⟨rfl, ?_⟩
  have h := (C8_nonempty_session_export dbOneQuestion "s1"
    ⟨1, .str "old question", "s1", "ts-0"⟩ true rfl (by decide) rfl).1
  simpa using h

/-- No comma, newline or carriage return in the text (the claim's
hypothesis for CSV round-tripping). -/
def no_comma_newline (s : String) : Bool :=
  s.toList.all (fun c => !(c == ',') && !(c == '\n') && !(c == '\r'))

/-- The claim's hypothesis, over a whole simple structure. -/
def simple_struct_no_comma_newline (st : SimpleStruct) : Bool :=
  no_comma_newline st.question && no_comma_newline st.answer &&
    st.hints.all no_comma_newline

/-- The simple-export `instances` object of a flat simple structure — the
shape `export_session_json` gives a stored session with these texts
(one-element `answers` exactly when the answer text is non-empty). -/
def simple_instances_json (st : SimpleStruct) : JSON :=
  .obj [("question", .obj [("question", .str st.question)]),
        ("answers", if st.answer == "" then .arr []
                    else .arr [.obj [("answer", .str st.answer)]]),
        ("hints", .arr (st.hints.map (fun h => .obj [("hint", .str h)])))]

/-- CSV serialization of a simple structure: the `(type, content)` rows the
CSV exporter writes for it. -/
def serialize_simple_csv (st : SimpleStruct) : List (List String) :=
  csv_rows_of_instances (simple_instances_json st)

/-- The hint rows the CSV writer emits for non-empty hint texts. -/
theorem filterMap_hint_rows (hsl : List String) (hh : ∀ h ∈ hsl, h ≠ "") :
    (hsl.map (fun h => JSON.obj [("hint", JSON.str h)])).filterMap csv_hint_row =
    hsl.map (fun h => ["hint", h]) := by
  induction hsl with
  | nil => rfl
  | cons h rest ih =>
    have hne : (h != "") = true := by simpa using hh h (by simp)
    have happ : csv_hint_row (JSON.obj [("hint", JSON.str h)]) = some ["hint", h] := by
      simp [csv_hint_row, lookupField, pyTruthy, csv_cell, hne]
    simp only [List.map_cons, List.filterMap_cons, happ]
    rw [ih (fun h hm => hh h (by simp [hm]))]

/-- Shape of the CSV serialization: header, then question/answer rows when
non-empty, then one row per (non-empty) hint. -/
theorem serialize_simple_csv_eq (st : SimpleStruct) (hh : ∀ h ∈ st.hints, h ≠ "") :
    serialize_simple_csv st =
    [["type", "content"]] ++
    (if st.question == "" then [] else [["question", st.question]]) ++
    (if st.answer == "" then [] else [["answer", st.answer]]) ++
    st.hints.map (fun h => ["hint", h]) := by
  rcases st with ⟨qs, ans, hsl⟩
  unfold serialize_simple_csv csv_rows_of_instances
  have hfm := filterMap_hint_rows hsl (by simpa using hh)
  by_cases hq0 : qs = "" <;> by_cases ha0 : ans = ""
  · subst hq0; subst ha0
    simp [simple_instances_json, jGet, lookupField, pyTruthy, csv_cell, hfm]
  · subst hq0
    have hane : (ans == "") = false := beq_eq_false_iff_ne.mpr ha0
    have hat : (ans != "") = true := by simp [ha0]
    simp [simple_instances_json, jGet, lookupField, pyTruthy, csv_cell, hane, hat, hfm]
  · subst ha0
    have hqne : (qs == "") = false := beq_eq_false_iff_ne.mpr hq0
    have hqt : (qs != "") = true := by simp [hq0]
    simp [simple_instances_json, jGet, lookupField, pyTruthy, csv_cell, hqne, hqt, hfm]
  · have hane : (ans == "") = false := beq_eq_false_iff_ne.mpr ha0
    have hat : (ans != "") = true := by simp [ha0]
    have hqne : (qs == "") = false := beq_eq_false_iff_ne.mpr hq0
    have hqt : (qs != "") = true := by simp [hq0]
    simp [simple_instances_json, jGet, lookupField, pyTruthy, csv_cell, hane, hat,
      hqne, hqt, hfm]

/-- Parsing one `question` row stores the (trimmed) question text. -/
theorem parse_rows_loop_question (q : String) (rest : List (List String))
    (st0 : SimpleStruct) (htr : py_strip q = q) (hne : q ≠ "") :
    parse_rows_loop ["type", "content"] (["question", q] :: rest) st0 =
    parse_rows_loop ["type", "content"] rest { st0 with question := q } := by
  have hT : rowGetStrip ["type", "content"] ["question", q] "type" = .ok "question" := rfl
  have hC : rowGetStrip ["type", "content"] ["question", q] "content" = .ok (py_strip q) := rfl
  have hne' : (q == "") = false := beq_eq_false_iff_ne.mpr hne
  rw [parse_rows_loop.eq_2]
  simp only [hT, hC, bind, Except.bind, htr, hne']
  simp [show py_lower "question" = "question" from by decide]

/-- Parsing one `answer` row stores the (trimmed) answer text. -/
theorem parse_rows_loop_answer (a : String) (rest : List (List String))
    (st0 : SimpleStruct) (htr : py_strip a = a) (hne : a ≠ "") :
    parse_rows_loop ["type", "content"] (["answer", a] :: rest) st0 =
    parse_rows_loop ["type", "content"] rest { st0 with answer := a } := by
  have hT : rowGetStrip ["type", "content"] ["answer", a] "type" = .ok "answer" := rfl
  have hC : rowGetStrip ["type", "content"] ["answer", a] "content" = .ok (py_strip a) := rfl
  have hne' : (a == "") = false := beq_eq_false_iff_ne.mpr hne
  rw [parse_rows_loop.eq_2]
  simp only [hT, hC, bind, Except.bind, htr, hne']
  simp [show py_lower "answer" = "answer" from by decide,
    show py_lower "answer" ≠ "question" from by decide]

/-- Parsing a block of `hint` rows appends the hint texts in order. -/
theorem parse_rows_loop_hints (hsl : List String) (st0 : SimpleStruct)
    (hh : ∀ h ∈ hsl, py_strip h = h ∧ h ≠ "") :
    parse_rows_loop ["type", "content"] (hsl.map (fun h => ["hint", h])) st0 =
      .ok { st0 with hints := st0.hints ++ hsl } := by
  induction hsl generalizing st0 with
  | nil => simp [parse_rows_loop]
  | cons h rest ih =>
    obtain ⟨htr, hne⟩ := hh h (by simp)
    have hT : rowGetStrip ["type", "content"] ["hint", h] "type" = .ok "hint" := rfl
    have hC : rowGetStrip ["type", "content"] ["hint", h] "content" = .ok (py_strip h) := rfl
    have hne' : (h == "") = false := beq_eq_false_iff_ne.mpr hne
    rw [List.map_cons, parse_rows_loop.eq_2]
    simp only [hT, hC, bind, Except.bind, htr, hne']
    rw [show parse_rows_loop ["type", "content"] (rest.map (fun h => ["hint", h]))
        { st0 with hints := st0.hints ++ [h] } =
        .ok { st0 with hints := (st0.hints ++ [h]) ++ rest } from
      ih _ (fun h hm => hh h (by simp [hm]))]
    simp [show py_lower "hint" = "hint" from by decide,
      show py_lower "hint" ≠ "question" from by decide,
      show py_lower "hint" ≠ "answer" from by decide]

/-- Unfolding the CSV parser on a non-empty record list. -/
theorem parse_csv_cons (header : List String) (dataRows : List (List String)) :
    parse_csv_to_structure (header :: dataRows) =
    parse_rows_loop (header.map (fun f => py_lower (py_strip f))) dataRows ⟨"", "", []⟩ := rfl

/-- C6 counterexample: the simple structure with hint text `" h"` — no
embedded comma or newline — does not survive the round trip: the parser's
`.strip()` removes the leading space, so the parse of the serialization is
the structure with hint `"h"`, not the original. -/
theorem C6_counterexample :
    simple_struct_no_comma_newline ⟨"Q", "A", [" h"]⟩ = true ∧
    parse_csv_to_structure (serialize_simple_csv ⟨"Q", "A", [" h"]⟩) =
      .ok ⟨"Q", "A", ["h"]⟩ ∧
    (⟨"Q", "A", ["h"]⟩ : SimpleStruct) ≠ ⟨"Q", "A", [" h"]⟩ := by
  refine ⟨by decide, by rfl, by decide⟩

/-- C6 (amended): for every simple structure whose texts contain no commas
or newlines, whose question and answer equal their stripped forms, and
whose hint texts are non-empty and equal their stripped forms, parsing the
serialized CSV rows returns the structure itself. -/
theorem C6_csv_round_trip (st : SimpleStruct)
    (hnc : simple_struct_no_comma_newline st = true)
    (hq : py_strip st.question = st.question)
    (ha : py_strip st.answer = st.answer)
    (hh : ∀ h ∈ st.hints, py_strip h = h ∧ h ≠ "") :
    parse_csv_to_structure (serialize_simple_csv st) = .ok st := by
  rcases st with ⟨qs, ans, hsl⟩
  rw [serialize_simple_csv_eq _ (fun h hm => (hh h hm).2)]
  simp only at hq ha hh
  have hfn : ["type", "content"].map (fun f => py_lower (py_strip f)) =
      ["type", "content"] := by decide
  by_cases hq0 : qs = "" <;> by_cases ha0 : ans = ""
  · subst hq0; subst ha0
    have heq : [["type", "content"]] ++ [] ++ [] ++ hsl.map (fun h => ["hint", h]) =
        ["type", "content"] :: hsl.map (fun h => ["hint", h]) := by simp
    simp only [beq_self_eq_true, if_true]
    rw [heq, parse_csv_cons, hfn, parse_rows_loop_hints hsl _ hh]
    simp
  · subst hq0
    have hane : (ans == "") = false := beq_eq_false_iff_ne.mpr ha0
    have heq : [["type", "content"]] ++ [] ++ [["answer", ans]] ++
        hsl.map (fun h => ["hint", h]) =
        ["type", "content"] :: ["answer", ans] :: hsl.map (fun h => ["hint", h]) := by simp
    simp only [beq_self_eq_true, if_true, hane, Bool.false_eq_true, if_false]
    rw [heq, parse_csv_cons, hfn, parse_rows_loop_answer ans _ _ ha ha0,
      parse_rows_loop_hints hsl _ hh]
    simp
  · subst ha0
    have hqne : (qs == "") = false := beq_eq_false_iff_ne.mpr hq0
    have heq : [["type", "content"]] ++ [["question", qs]] ++ [] ++
        hsl.map (fun h => ["hint", h]) =
        ["type", "content"] :: ["question", qs] :: hsl.map (fun h => ["hint", h]) := by simp
    simp only [beq_self_eq_true, if_true, hqne, Bool.false_eq_true, if_false]
    rw [heq, parse_csv_cons, hfn, parse_rows_loop_question qs _ _ hq hq0,
      parse_rows_loop_hints hsl _ hh]
    simp
  · have hane : (ans == "") = false := beq_eq_false_iff_ne.mpr ha0
    have hqne : (qs == "") = false := beq_eq_false_iff_ne.mpr hq0
    have heq : [["type", "content"]] ++ [["question", qs]] ++ [["answer", ans]] ++
        hsl.map (fun h => ["hint", h]) =
        ["type", "content"] :: ["question", qs] :: ["answer", ans] ::
          hsl.map (fun h => ["hint", h]) := by simp
    simp only [hane, hqne, Bool.false_eq_true, if_false]
    rw [heq, parse_csv_cons, hfn, parse_rows_loop_question qs _ _ hq hq0,
      parse_rows_loop_answer ans _ _ ha ha0, parse_rows_loop_hints hsl _ hh]
    simp

/-- C6 witness: a concrete trimmed comma-free structure round-trips. -/
theorem C6_csv_round_trip_witness :
    simple_struct_no_comma_newline ⟨"Q", "A", ["h1", "h2"]⟩ = true ∧
    parse_csv_to_structure (serialize_simple_csv ⟨"Q", "A", ["h1", "h2"]⟩) =
      .ok ⟨"Q", "A", ["h1", "h2"]⟩ :=
  ⟨by decide,
   C6_csv_round_trip ⟨"Q", "A", ["h1", "h2"]⟩ (by decide) (by decide) (by decide)
     (by intro h hm
         simp only [List.mem_cons, List.not_mem_nil, or_false] at hm
         rcases hm with rfl | rfl
         · exact ⟨by decide, by decide⟩
         · exact ⟨by decide, by decide⟩)⟩

/-!
## C2: full-backup round trip

The session state hanging off one question is abstracted as `FullData`
(texts, per-hint metrics/entities, candidates); `exportOf` is the JSON
image `export_session_json` gives it, and `sessionFullData` extracts it
back from a database.  The round-trip proof shows the full importer
rebuilds exactly the normalized `FullData` of the payload.
-/

structure MetricData where
  name : JSON
  value : JSON
  meta : Option JSON
deriving Repr, DecidableEq

structure EntityData where
  text : JSON
  typ : JSON
  start : JSON
  stop : JSON
  meta : Option JSON
deriving Repr, DecidableEq

structure HintData where
  text : JSON
  metrics : List MetricData
  entities : List EntityData
deriving Repr, DecidableEq

structure CandData where
  text : JSON
  elim : Bool
  created : JSON
  updated : JSON
  gt : Bool
deriving Repr, DecidableEq

structure FullData where
  qtext : JSON
  atext : JSON
  modelName : Option String
  hints : List HintData
  cands : List CandData
deriving Repr, DecidableEq

def metricDataOf (m : MetricRow) : MetricData := ⟨m.name, m.value, m.metadata_json⟩

def entityDataOf (e : EntityRow) : EntityData :=
  ⟨e.entity, e.ent_type, e.start_index, e.end_index, e.metadata_json⟩

def candDataOf (c : CandidateRow) : CandData :=
  ⟨c.candidate_text, c.is_eliminated, c.created_at, c.updated_at, c.is_groundtruth⟩

def hintDataOf (db : DB) (h : HintRow) : HintData :=
  ⟨h.hint_text,
   (db.metrics.filter (fun m => m.hint_id == h.hid)).map metricDataOf,
   (db.entities.filter (fun e => e.hint_id == h.hid)).map entityDataOf⟩

/-- The session state of a question id, as the exporter reads it. -/
def sessionFullData (db : DB) (qid : Nat) : FullData :=
  ⟨(match (db.questions.filter (fun q => q.qid == qid)).head? with
    | some q => q.text
    | none => JSON.str ""),
   (match (db.answers.filter (fun a => a.question_id == qid)).head? with
    | some a => a.answer_text
    | none => JSON.str ""),
   (match (db.answers.filter (fun a => a.question_id == qid)).head? with
    | some a => a.model_name
    | none => none),
   (db.hints.filter (fun h => h.question_id == qid)).map (hintDataOf db),
   (db.candidate_answers.filter (fun c => c.question_id == qid)).map candDataOf⟩

def exportMetricObj (m : MetricData) : JSON :=
  JSON.obj ([("name", m.name), ("value", m.value)] ++
    (match m.meta with | some v => [("metadata", v)] | none => []))

def exportEntityObj (e : EntityData) : JSON :=
  JSON.obj ([("text", e.text), ("type", e.typ), ("start", e.start), ("end", e.stop)] ++
    (match e.meta with | some v => [("metadata", v)] | none => []))

def exportHintObj (hd : HintData) : JSON :=
  let ms := hd.metrics.map exportMetricObj
  let es := hd.entities.map exportEntityObj
  JSON.obj ([("hint", hd.text)] ++
    (if ms.isEmpty then [] else [("metrics", JSON.arr ms)]) ++
    (if es.isEmpty then [] else [("entities", JSON.arr es)]))

def exportCandObj (c : CandData) : JSON :=
  JSON.obj ([("text", c.text), ("is_eliminated", .bool c.elim),
             ("created_at", c.created), ("is_groundtruth", .bool c.gt)] ++
    (if pyTruthy c.updated then [("updated_at", c.updated)] else []))

/-- The `instances` field list of the full-export image of a `FullData`. -/
def exportFields (fd : FullData) : List (String × JSON) :=
  [("question", JSON.obj [("question", fd.qtext)]),
   ("answers", if pyTruthy fd.atext
      then JSON.arr [JSON.obj [("answer", fd.atext)]] else JSON.arr []),
   ("hints", JSON.arr (fd.hints.map exportHintObj))] ++
  (match fd.modelName with
   | some m => if m == "" then [] else [("model_name", JSON.str m)]
   | none => []) ++
  (if fd.cands.isEmpty then []
   else [("candidates_full", JSON.arr (fd.cands.map exportCandObj))])

/-- The full-export JSON image of a `FullData`. -/
def exportOf (fd : FullData) : JSON :=
  JSON.obj [("instances", JSON.obj (exportFields fd))]

/-- What the importer stores for a candidate: a falsy `updated_at` becomes
`NULL`; everything else survives. -/
def normCand (c : CandData) : CandData :=
  { c with updated := if pyTruthy c.updated then c.updated else .null }

/-- What one full round trip preserves: everything except the answer's
`model_name` (dropped by the importer) and falsy `updated_at` markers. -/
def normalizeFD (fd : FullData) : FullData :=
  ⟨fd.qtext, fd.atext, none, fd.hints, fd.cands.map normCand⟩

/-- Drop the `model_name` annotation from an export document. -/
def erase_model_name (j : JSON) : JSON :=
  match j with
  | .obj kvs => .obj (kvs.map (fun kv =>
      if kv.1 == "instances" then
        (kv.1, match kv.2 with
               | .obj fs => JSON.obj (fs.filter (fun f => f.1 != "model_name"))
               | other => other)
      else kv))
  | other => other

/-- Lookup distributes over appended field lists. -/
theorem lookupField_append (l1 l2 : List (String × JSON)) (k : String) :
    lookupField (l1 ++ l2) k =
    (match lookupField l1 k with
     | some v => some v
     | none => lookupField l2 k) := by
  induction l1 with
  | nil => rfl
  | cons kv rest ih =>
    rcases kv with ⟨k2, v⟩
    by_cases hk : k2 == k
    · simp [lookupField, hk]
    · simp [lookupField, hk, ih]

/-- Mapping does not change emptiness. -/
theorem isEmpty_map {α β : Type} (f : α → β) (l : List α) :
    (l.map f).isEmpty = l.isEmpty := by
  cases l <;> rfl

/-- The full export of a session is the export image of its extracted
session data. -/
theorem export_session_json_eq (db : DB) (session_id : String) (qid : Nat)
    (hlast : get_last_question_id db session_id = some qid) (h0 : qid ≠ 0) :
    export_session_json db session_id true = exportOf (sessionFullData db qid) := by
  have hne : (qid == 0) = false := beq_eq_false_iff_ne.mpr h0
  unfold export_session_json exportOf exportFields sessionFullData
  rw [hlast]
  simp only [hne, Bool.false_eq_true, if_false, if_true, List.map_map,
    Function.comp_def, hintDataOf, exportHintObj, exportMetricObj, exportEntityObj,
    exportCandObj, metricDataOf, entityDataOf, candDataOf, isEmpty_map, List.map_map]
  rfl

/-- Field lookups on the export image. -/
theorem lookupField_exportFields_cands (fd : FullData) (hc : fd.cands ≠ []) :
    lookupField (exportFields fd) "candidates_full" =
      some (JSON.arr (fd.cands.map exportCandObj)) := by
  have hie : fd.cands.isEmpty = false := by
    cases hcs : fd.cands with
    | nil => exact absurd hcs hc
    | cons c rest => rfl
  unfold exportFields
  rw [lookupField_append, lookupField_append]
  have h1 : lookupField
      [("question", JSON.obj [("question", fd.qtext)]),
       ("answers", if pyTruthy fd.atext
          then JSON.arr [JSON.obj [("answer", fd.atext)]] else JSON.arr []),
       ("hints", JSON.arr (fd.hints.map exportHintObj))] "candidates_full" = none := rfl
  have h2 : lookupField
      (match fd.modelName with
       | some m => if m == "" then [] else [("model_name", JSON.str m)]
       | none => []) "candidates_full" = none := by
    match fd.modelName with
    | none => rfl
    | some m =>
      by_cases hm : m == "" <;> simp [hm, lookupField]
  rw [h1, h2]
  simp [hie, lookupField]

/-- An export with candidates is classified as a full backup. -/
theorem is_full_backup_exportOf (fd : FullData) (hc : fd.cands ≠ []) :
    is_full_backup_format (exportOf fd) = true := by
  have hCandsKey : ((exportFields fd).any (fun kv => kv.1 == "candidates_full")) = true := by
    rw [← lookupField_isSome, lookupField_exportFields_cands fd hc]
    rfl
  unfold is_full_backup_format exportOf
  simp [pyContainsStr, pyGetItemStr, lookupField, Bind.bind, Option.bind, hCandsKey]

/-- The ground-truth flag read off an exported candidate object. -/
theorem jGet_exportCandObj_gt (c : CandData) :
    jGet (exportCandObj c) "is_groundtruth" .null = JSON.bool c.gt := by
  unfold exportCandObj jGet
  by_cases hu : pyTruthy c.updated = true <;> simp [hu, lookupField]

/-- A well-formed export (≥ 2 candidates, exactly one ground truth) passes
the structural validator. -/
theorem validate_exportOf_ok (fd : FullData) (hlen : 2 ≤ fd.cands.length)
    (hgt : (fd.cands.filter (fun c => c.gt)).length = 1) :
    validate_full_import_structure (exportOf fd) = .ok () := by
  have hie : fd.cands.isEmpty = false := by
    cases hcs : fd.cands with
    | nil => rw [hcs] at hlen; simp at hlen
    | cons c rest => rfl
  have hne : fd.cands ≠ [] := by
    intro hcs; rw [hcs] at hie; simp at hie
  have hmapne : (fd.cands.map exportCandObj).isEmpty = false := by
    rw [isEmpty_map]; exact hie
  have hobj : ∀ c ∈ fd.cands.map exportCandObj, ∃ f, c = JSON.obj f := by
    intro c hcm
    obtain ⟨cd, _, rfl⟩ := List.mem_map.mp hcm
    exact ⟨_, rfl⟩
  have hflags : gt_flags (fd.cands.map exportCandObj) =
      fd.cands.map (fun c => JSON.bool c.gt) := by
    unfold gt_flags
    rw [List.map_map]
    refine List.map_congr_left ?_
    intro c _
    exact jGet_exportCandObj_gt c
  have hcount : ((gt_flags (fd.cands.map exportCandObj)).filter
      (fun f => f == JSON.bool true)).length = 1 := by
    rw [hflags]
    have hbeq : ∀ (c : CandData),
        ((JSON.bool c.gt : JSON) == JSON.bool true) = c.gt := by
      intro c
      cases hg : c.gt <;> rfl
    rw [List.filter_map, List.length_map]
    rw [show ((fun (f : JSON) => f == JSON.bool true) ∘ fun c => JSON.bool c.gt)
        = (fun (c : CandData) => c.gt) from funext (fun c => hbeq c)]
    exact hgt
  have hInstOk : pyAttrGet (exportOf fd) "instances" (.obj []) =
      .ok (.obj (exportFields fd)) := rfl
  have hT1 : pyTruthy (JSON.obj (exportFields fd)) = true := rfl
  have hCandsOk : pyAttrGet (.obj (exportFields fd)) "candidates_full" (.arr []) =
      .ok (JSON.arr (fd.cands.map exportCandObj)) := by
    simp [pyAttrGet, lookupField_exportFields_cands fd hne]
  have hT2 : pyTruthy (JSON.arr (fd.cands.map exportCandObj)) = true := by
    simp [pyTruthy, hmapne]
  have hlen2 : ¬((fd.cands.map exportCandObj).length < 2) := by
    rw [List.length_map]; omega
  unfold validate_full_import_structure
  simp only [hInstOk, bind, Except.bind, hT1, Bool.not_true, Bool.false_eq_true, if_false]
  simp only [hCandsOk, Option.getD_some, hT2, Bool.not_true,
    Bool.false_eq_true, if_false, bind, Except.bind, pyLen, pyIter]
  rw [if_neg hlen2]
  rw [mapM_gt_flags _ hobj]
  simp only [bind, Except.bind, ite_not, if_pos hcount]
  rfl

/-- Reading `metadata` off an exported metric object. -/
theorem pyAttrGet_exportMetricObj_metadata (md : MetricData) :
    pyAttrGet (exportMetricObj md) "metadata" .null = .ok (md.meta.getD .null) := by
  cases hm : md.meta <;> simp [exportMetricObj, pyAttrGet, lookupField, hm]

/-- Reading `name` off an exported metric object. -/
theorem pySubscript_exportMetricObj_name (md : MetricData) :
    pySubscript (exportMetricObj md) "name" = .ok md.name := by
  cases hm : md.meta <;> simp [exportMetricObj, pySubscript, lookupField, hm]

/-- Reading `value` off an exported metric object. -/
theorem pyAttrGet_exportMetricObj_value (md : MetricData) :
    pyAttrGet (exportMetricObj md) "value" .null = .ok md.value := by
  cases hm : md.meta <;> simp [exportMetricObj, pyAttrGet, lookupField, hm]

/-- Reading `metadata` off an exported entity object. -/
theorem pyAttrGet_exportEntityObj_metadata (ed : EntityData) :
    pyAttrGet (exportEntityObj ed) "metadata" .null = .ok (ed.meta.getD .null) := by
  cases hm : ed.meta <;> simp [exportEntityObj, pyAttrGet, lookupField, hm]

/-- Reading `text` off an exported entity object. -/
theorem pySubscript_exportEntityObj_text (ed : EntityData) :
    pySubscript (exportEntityObj ed) "text" = .ok ed.text := by
  cases hm : ed.meta <;> simp [exportEntityObj, pySubscript, lookupField, hm]

/-- Reading `type` off an exported entity object. -/
theorem pySubscript_exportEntityObj_type (ed : EntityData) :
    pySubscript (exportEntityObj ed) "type" = .ok ed.typ := by
  cases hm : ed.meta <;> simp [exportEntityObj, pySubscript, lookupField, hm]

/-- Reading `start` off an exported entity object. -/
theorem pySubscript_exportEntityObj_start (ed : EntityData) :
    pySubscript (exportEntityObj ed) "start" = .ok ed.start := by
  cases hm : ed.meta <;> simp [exportEntityObj, pySubscript, lookupField, hm]

/-- Reading `end` off an exported entity object. -/
theorem pySubscript_exportEntityObj_end (ed : EntityData) :
    pySubscript (exportEntityObj ed) "end" = .ok ed.stop := by
  cases hm : ed.meta <;> simp [exportEntityObj, pySubscript, lookupField, hm]

/-- Reading `hint` off an exported hint object. -/
theorem pyAttrGet_exportHintObj_hint (hd : HintData) :
    pyAttrGet (exportHintObj hd) "hint" (.str "") = .ok hd.text := by
  cases hms : hd.metrics <;> cases hes : hd.entities <;>
    simp [exportHintObj, pyAttrGet, lookupField, hms, hes]

/-- Reading `metrics` off an exported hint object: the stored list, or the
loop's empty default when no metrics were exported. -/
theorem pyAttrGet_exportHintObj_metrics (hd : HintData) :
    pyAttrGet (exportHintObj hd) "metrics" (.arr []) =
      .ok (.arr (hd.metrics.map exportMetricObj)) := by
  cases hms : hd.metrics <;> cases hes : hd.entities <;>
    simp [exportHintObj, pyAttrGet, lookupField, hms, hes]

/-- Reading `entities` off an exported hint object. -/
theorem pyAttrGet_exportHintObj_entities (hd : HintData) :
    pyAttrGet (exportHintObj hd) "entities" (.arr []) =
      .ok (.arr (hd.entities.map exportEntityObj)) := by
  cases hms : hd.metrics <;> cases hes : hd.entities <;>
    simp [exportHintObj, pyAttrGet, lookupField, hms, hes]

/-- Reading `text` off an exported candidate object. -/
theorem pySubscript_exportCandObj_text (c : CandData) :
    pySubscript (exportCandObj c) "text" = .ok c.text := by
  by_cases hu : pyTruthy c.updated <;> simp [exportCandObj, pySubscript, lookupField, hu]

/-- Reading `is_eliminated` off an exported candidate object. -/
theorem pyAttrGet_exportCandObj_elim (c : CandData) :
    pyAttrGet (exportCandObj c) "is_eliminated" (.bool false) = .ok (.bool c.elim) := by
  by_cases hu : pyTruthy c.updated <;> simp [exportCandObj, pyAttrGet, lookupField, hu]

/-- Reading `created_at` off an exported candidate object: the field is
always present, so no default timestamp is taken. -/
theorem pyAttrGet_exportCandObj_created (c : CandData) (d : JSON) :
    pyAttrGet (exportCandObj c) "created_at" d = .ok c.created := by
  by_cases hu : pyTruthy c.updated <;> simp [exportCandObj, pyAttrGet, lookupField, hu]

/-- Reading `updated_at` off an exported candidate object: the stored value
when truthy, otherwise the loop's `NULL` default. -/
theorem pyAttrGet_exportCandObj_updated (c : CandData) :
    pyAttrGet (exportCandObj c) "updated_at" .null =
      .ok (if pyTruthy c.updated then c.updated else .null) := by
  by_cases hu : pyTruthy c.updated <;> simp [exportCandObj, pyAttrGet, lookupField, hu]

/-- Reading `is_groundtruth` off an exported candidate object. -/
theorem pyAttrGet_exportCandObj_gt (c : CandData) :
    pyAttrGet (exportCandObj c) "is_groundtruth" (.bool false) = .ok (.bool c.gt) := by
  by_cases hu : pyTruthy c.updated <;> simp [exportCandObj, pyAttrGet, lookupField, hu]

/-- Distinct naturals compare `false` under `==`. -/
theorem nat_beq_of_lt {a b : Nat} (h : a < b) : (a == b) = false :=
  beq_eq_false_iff_ne.mpr (Nat.ne_of_lt h)

theorem insert_metrics_loop_spec (hid : Nat) (mds : List MetricData)
    (hM : ∀ md ∈ mds, ∀ v, md.meta = some v → pyTruthy v = true) :
    ∀ (db : DB) (cnt : Nat), hid < db.nextId →
    (∀ mr ∈ db.metrics, mr.hint_id < db.nextId) →
    ∃ cnt2 db2,
      insert_metrics_loop db hid (mds.map exportMetricObj) cnt = .ok (cnt2, db2) ∧
      db2.questions = db.questions ∧ db2.answers = db.answers ∧ db2.hints = db.hints ∧
      db2.entities = db.entities ∧ db2.candidate_answers = db.candidate_answers ∧
      db2.clock = db.clock ∧ db.nextId ≤ db2.nextId ∧
      (∀ mr ∈ db2.metrics, mr.hint_id < db2.nextId) ∧
      (∀ hid2, (db2.metrics.filter (fun mr => mr.hint_id == hid2)).map metricDataOf =
        (db.metrics.filter (fun mr => mr.hint_id == hid2)).map metricDataOf ++
        (if hid2 = hid then mds else [])) := by
  induction mds with
  | nil =>
    intro db cnt _ hbound
    exact ⟨cnt, db, rfl, rfl, rfl, rfl, rfl, rfl, rfl, Nat.le_refl _, hbound,
      fun hid2 => by simp⟩
  | cons md rest ih =>
    intro db cnt hhid hbound
    have hmeta := pyAttrGet_exportMetricObj_metadata md
    have hname := pySubscript_exportMetricObj_name md
    have hval := pyAttrGet_exportMetricObj_value md
    have hstored : (if pyTruthy (md.meta.getD .null) then some (md.meta.getD .null)
        else none) = md.meta := by
      cases hm : md.meta with
      | none => simp [pyTruthy]
      | some v => simp [hM md (by simp) v hm]
    have hstep : insert_metrics_loop db hid ((md :: rest).map exportMetricObj) cnt =
        insert_metrics_loop
          { db with metrics := db.metrics ++ [⟨db.nextId, hid, md.name, md.value, md.meta⟩],
                    nextId := db.nextId + 1 }
          hid (rest.map exportMetricObj) (cnt + 1) := by
      rw [List.map_cons, insert_metrics_loop.eq_2]
      simp only [hmeta, hname, hval, bind, Except.bind, insert_metric, DB.fresh]
      rw [hstored]
    have hrest : ∀ md2 ∈ rest, ∀ v, md2.meta = some v → pyTruthy v = true :=
      fun md2 hm2 => hM md2 (by simp [hm2])
    obtain ⟨cnt2, db2, heq, hq, ha, hh, he, hc, hck, hni, hb2, hext⟩ :=
      ih hrest { db with
          metrics := db.metrics ++ [⟨db.nextId, hid, md.name, md.value, md.meta⟩],
          nextId := db.nextId + 1 } (cnt + 1)
        (Nat.lt_succ_of_lt hhid)
        (by
          intro mr hmr
          rcases List.mem_append.mp hmr with h1 | h1
          · exact Nat.lt_succ_of_lt (hbound mr h1)
          · simp at h1; rw [h1]; exact Nat.lt_succ_of_lt hhid)
    refine ⟨cnt2, db2, hstep ▸ heq, hq, ha, hh, he, hc, hck,
      Nat.le_trans (Nat.le_succ _) hni, hb2, ?_⟩
    intro hid2
    rw [hext hid2]
    by_cases h2 : hid2 = hid
    · subst h2
      simp [List.filter_append, metricDataOf]
    · have hb : (hid == hid2) = false := beq_eq_false_iff_ne.mpr (Ne.symm h2)
      simp [List.filter_append, hb, h2]

theorem insert_entities_loop_spec (hid : Nat) (eds : List EntityData)
    (hM : ∀ ed ∈ eds, ∀ v, ed.meta = some v → pyTruthy v = true) :
    ∀ (db : DB) (cnt : Nat), hid < db.nextId →
    (∀ er ∈ db.entities, er.hint_id < db.nextId) →
    ∃ cnt2 db2,
      insert_entities_loop db hid (eds.map exportEntityObj) cnt = .ok (cnt2, db2) ∧
      db2.questions = db.questions ∧ db2.answers = db.answers ∧ db2.hints = db.hints ∧
      db2.metrics = db.metrics ∧ db2.candidate_answers = db.candidate_answers ∧
      db2.clock = db.clock ∧ db.nextId ≤ db2.nextId ∧
      (∀ er ∈ db2.entities, er.hint_id < db2.nextId) ∧
      (∀ hid2, (db2.entities.filter (fun er => er.hint_id == hid2)).map entityDataOf =
        (db.entities.filter (fun er => er.hint_id == hid2)).map entityDataOf ++
        (if hid2 = hid then eds else [])) := by
  induction eds with
  | nil =>
    intro db cnt _ hbound
    exact ⟨cnt, db, rfl, rfl, rfl, rfl, rfl, rfl, rfl, Nat.le_refl _, hbound,
      fun hid2 => by simp⟩
  | cons ed rest ih =>
    intro db cnt hhid hbound
    have hmeta := pyAttrGet_exportEntityObj_metadata ed
    have htext := pySubscript_exportEntityObj_text ed
    have htyp := pySubscript_exportEntityObj_type ed
    have hstart := pySubscript_exportEntityObj_start ed
    have hstop := pySubscript_exportEntityObj_end ed
    have hstored : (if pyTruthy (ed.meta.getD .null) then some (ed.meta.getD .null)
        else none) = ed.meta := by
      cases hm : ed.meta with
      | none => simp [pyTruthy]
      | some v => simp [hM ed (by simp) v hm]
    have hstep : insert_entities_loop db hid ((ed :: rest).map exportEntityObj) cnt =
        insert_entities_loop
          { db with entities := db.entities ++
              [⟨db.nextId, hid, ed.text, ed.typ, ed.start, ed.stop, ed.meta⟩],
                    nextId := db.nextId + 1 }
          hid (rest.map exportEntityObj) (cnt + 1) := by
      rw [List.map_cons, insert_entities_loop.eq_2]
      simp only [hmeta, htext, htyp, hstart, hstop, bind, Except.bind, insert_entity, DB.fresh]
      rw [hstored]
    have hrest : ∀ ed2 ∈ rest, ∀ v, ed2.meta = some v → pyTruthy v = true :=
      fun ed2 hm2 => hM ed2 (by simp [hm2])
    obtain ⟨cnt2, db2, heq, hq, ha, hh, hm, hc, hck, hni, hb2, hext⟩ :=
      ih hrest { db with
          entities := db.entities ++
            [⟨db.nextId, hid, ed.text, ed.typ, ed.start, ed.stop, ed.meta⟩],
          nextId := db.nextId + 1 } (cnt + 1)
        (Nat.lt_succ_of_lt hhid)
        (by
          intro er her
          rcases List.mem_append.mp her with h1 | h1
          · exact Nat.lt_succ_of_lt (hbound er h1)
          · simp at h1; rw [h1]; exact Nat.lt_succ_of_lt hhid)
    refine ⟨cnt2, db2, hstep ▸ heq, hq, ha, hh, hm, hc, hck,
      Nat.le_trans (Nat.le_succ _) hni, hb2, ?_⟩
    intro hid2
    rw [hext hid2]
    by_cases h2 : hid2 = hid
    · subst h2
      simp [List.filter_append, entityDataOf]
    · have hb : (hid == hid2) = false := beq_eq_false_iff_ne.mpr (Ne.symm h2)
      simp [List.filter_append, hb, h2]

theorem insert_candidates_loop_spec (qid : Nat) (cds : List CandData) :
    ∀ (db : DB) (cnt : Nat), qid < db.nextId →
    (∀ cr ∈ db.candidate_answers, cr.question_id < db.nextId) →
    ∃ cnt2 db2,
      insert_candidates_loop db qid (cds.map exportCandObj) cnt = .ok (cnt2, db2) ∧
      db2.questions = db.questions ∧ db2.answers = db.answers ∧ db2.hints = db.hints ∧
      db2.metrics = db.metrics ∧ db2.entities = db.entities ∧
      db.nextId ≤ db2.nextId ∧
      (∀ cr ∈ db2.candidate_answers, cr.question_id < db2.nextId) ∧
      (∀ qid2, (db2.candidate_answers.filter (fun cr => cr.question_id == qid2)).map candDataOf =
        (db.candidate_answers.filter (fun cr => cr.question_id == qid2)).map candDataOf ++
        (if qid2 = qid then cds.map normCand else [])) := by
  induction cds with
  | nil =>
    intro db cnt _ hbound
    exact ⟨cnt, db, rfl, rfl, rfl, rfl, rfl, rfl, Nat.le_refl _, hbound,
      fun qid2 => by simp⟩
  | cons cd rest ih =>
    intro db cnt hqid hbound
    have htext := pySubscript_exportCandObj_text cd
    have helim := pyAttrGet_exportCandObj_elim cd
    have hupd := pyAttrGet_exportCandObj_updated cd
    have hgt := pyAttrGet_exportCandObj_gt cd
    have hstep : insert_candidates_loop db qid ((cd :: rest).map exportCandObj) cnt =
        insert_candidates_loop
          { db with candidate_answers := db.candidate_answers ++
              [⟨db.nextId, qid, cd.text, cd.elim, cd.created,
                if pyTruthy cd.updated then cd.updated else .null, cd.gt⟩],
                    nextId := db.nextId + 1, clock := db.clock + 1 }
          qid (rest.map exportCandObj) (cnt + 1) := by
      rw [List.map_cons, insert_candidates_loop.eq_2]
      simp only [DB.tick, pyAttrGet_exportCandObj_created, htext, helim, hupd, hgt,
        bind, Except.bind, insert_candidate, DB.fresh, pyTruthy]
    obtain ⟨cnt2, db2, heq, hq, ha, hh, hm, he, hni, hb2, hext⟩ :=
      ih { db with candidate_answers := db.candidate_answers ++
              [⟨db.nextId, qid, cd.text, cd.elim, cd.created,
                if pyTruthy cd.updated then cd.updated else .null, cd.gt⟩],
                    nextId := db.nextId + 1, clock := db.clock + 1 } (cnt + 1)
        (Nat.lt_succ_of_lt hqid)
        (by
          intro cr hcr
          rcases List.mem_append.mp hcr with h1 | h1
          · exact Nat.lt_succ_of_lt (hbound cr h1)
          · simp at h1; rw [h1]; exact Nat.lt_succ_of_lt hqid)
    refine ⟨cnt2, db2, hstep ▸ heq, hq, ha, hh, hm, he,
      Nat.le_trans (Nat.le_succ _) hni, hb2, ?_⟩
    intro qid2
    rw [hext qid2]
    by_cases h2 : qid2 = qid
    · subst h2
      simp [List.filter_append, candDataOf, normCand]
    · have hb : (qid == qid2) = false := beq_eq_false_iff_ne.mpr (Ne.symm h2)
      simp [List.filter_append, hb, h2]

theorem insert_full_hint_one_spec (qid aid : Nat) (hd : HintData) (db : DB)
    (hM : ∀ md ∈ hd.metrics, ∀ v, md.meta = some v → pyTruthy v = true)
    (hE : ∀ ed ∈ hd.entities, ∀ v, ed.meta = some v → pyTruthy v = true)
    (hbh : ∀ hr ∈ db.hints, hr.hid < db.nextId)
    (hbm : ∀ mr ∈ db.metrics, mr.hint_id < db.nextId)
    (hbe : ∀ er ∈ db.entities, er.hint_id < db.nextId)
    (mc ec : Nat) :
    ∃ mc2 ec2 db2,
      insert_full_hint_one db qid aid (exportHintObj hd) hd.text mc ec =
        .ok ((mc2, ec2), db2) ∧
      db2.questions = db.questions ∧ db2.answers = db.answers ∧
      db2.candidate_answers = db.candidate_answers ∧
      db2.hints = db.hints ++
        [⟨db.nextId, qid, aid, hd.text, get_current_timestamp db.clock⟩] ∧
      db.nextId < db2.nextId ∧
      (∀ hr ∈ db2.hints, hr.hid < db2.nextId) ∧
      (∀ mr ∈ db2.metrics, mr.hint_id < db2.nextId) ∧
      (∀ er ∈ db2.entities, er.hint_id < db2.nextId) ∧
      (∀ hid2, (db2.metrics.filter (fun mr => mr.hint_id == hid2)).map metricDataOf =
        (db.metrics.filter (fun mr => mr.hint_id == hid2)).map metricDataOf ++
        (if hid2 = db.nextId then hd.metrics else [])) ∧
      (∀ hid2, (db2.entities.filter (fun er => er.hint_id == hid2)).map entityDataOf =
        (db.entities.filter (fun er => er.hint_id == hid2)).map entityDataOf ++
        (if hid2 = db.nextId then hd.entities else [])) := by
  obtain ⟨mc2, dbB, heqM, hqM, haM, hhM, heM, hcM, hckM, hniM, hbM, hextM⟩ :=
    insert_metrics_loop_spec db.nextId hd.metrics hM
      { db with
          hints := db.hints ++
            [⟨db.nextId, qid, aid, hd.text, get_current_timestamp db.clock⟩],
          nextId := db.nextId + 1,
          clock := db.clock + 1 } mc
      (Nat.lt_succ_self _)
      (fun mr hmr => Nat.lt_succ_of_lt (hbm mr hmr))
  obtain ⟨ec2, dbA, heqE, hqE, haE, hhE, hmE, hcE, hckE, hniE, hbE, hextE⟩ :=
    insert_entities_loop_spec db.nextId hd.entities hE dbB ec
      (Nat.lt_of_lt_of_le (Nat.lt_succ_self _) hniM)
      (by
        intro er her
        rw [heM] at her
        exact Nat.lt_of_lt_of_le (Nat.lt_succ_of_lt (hbe er her)) hniM)
  have hcalc : insert_full_hint_one db qid aid (exportHintObj hd) hd.text mc ec =
      .ok ((mc2, ec2), dbA) := by
    simp only [insert_full_hint_one, insert_hint, DB.tick, DB.fresh,
      pyAttrGet_exportHintObj_metrics, pyAttrGet_exportHintObj_entities, pyIter,
      bind, Except.bind]
    rw [heqM]
    simp only [pyAttrGet_exportHintObj_entities, bind, Except.bind]
    rw [heqE]
  refine ⟨mc2, ec2, dbA, hcalc, ?_, ?_, ?_, ?_, ?_, ?_, ?_, ?_, ?_, ?_⟩
  · rw [hqE, hqM]
  · rw [haE, haM]
  · rw [hcE, hcM]
  · rw [hhE, hhM]
  · exact Nat.lt_of_lt_of_le (Nat.lt_of_lt_of_le (Nat.lt_succ_self _) hniM) hniE
  · intro hr hhr
    rw [hhE, hhM] at hhr
    rcases List.mem_append.mp hhr with h1 | h1
    · exact Nat.lt_of_lt_of_le
        (Nat.lt_of_lt_of_le (Nat.lt_succ_of_lt (hbh hr h1)) hniM) hniE
    · simp at h1; rw [h1]
      exact Nat.lt_of_lt_of_le (Nat.lt_of_lt_of_le (Nat.lt_succ_self _) hniM) hniE
  · intro mr hmr
    rw [hmE] at hmr
    exact Nat.lt_of_lt_of_le (hbM mr hmr) hniE
  · exact hbE
  · intro hid2
    rw [hmE, hextM hid2]
  · intro hid2
    rw [hextE hid2, heM]

theorem insert_full_hints_loop_spec (qid aid : Nat) (hds : List HintData)
    (hT : ∀ hd ∈ hds, pyTruthy hd.text = true)
    (hM : ∀ hd ∈ hds, ∀ md ∈ hd.metrics, ∀ v, md.meta = some v → pyTruthy v = true)
    (hE : ∀ hd ∈ hds, ∀ ed ∈ hd.entities, ∀ v, ed.meta = some v → pyTruthy v = true) :
    ∀ (db : DB) (hc mc ec : Nat),
    (∀ hr ∈ db.hints, hr.hid < db.nextId) →
    (∀ mr ∈ db.metrics, mr.hint_id < db.nextId) →
    (∀ er ∈ db.entities, er.hint_id < db.nextId) →
    ∃ hc2 mc2 ec2 db2,
      insert_full_hints_loop db qid aid (hds.map exportHintObj) hc mc ec =
        .ok ((hc2, mc2, ec2), db2) ∧
      db2.questions = db.questions ∧ db2.answers = db.answers ∧
      db2.candidate_answers = db.candidate_answers ∧
      db.nextId ≤ db2.nextId ∧
      (∀ hr ∈ db2.hints, hr.hid < db2.nextId) ∧
      (∀ mr ∈ db2.metrics, mr.hint_id < db2.nextId) ∧
      (∀ er ∈ db2.entities, er.hint_id < db2.nextId) ∧
      (∀ qid2, (db2.hints.filter (fun hr => hr.question_id == qid2)).map (hintDataOf db2) =
        (db.hints.filter (fun hr => hr.question_id == qid2)).map (hintDataOf db) ++
        (if qid2 = qid then hds else [])) := by
  induction hds with
  | nil =>
    intro db hc mc ec hbh hbm hbe
    exact ⟨hc, mc, ec, db, rfl, rfl, rfl, rfl, Nat.le_refl _, hbh, hbm, hbe,
      fun qid2 => by simp⟩
  | cons hd rest ih =>
    intro db hc mc ec hbh hbm hbe
    obtain ⟨mc2, ec2, dbA, hcalc, hqA, haA, hcA, hhA, hniA, hbhA, hbmA, hbeA, hextM, hextE⟩ :=
      insert_full_hint_one_spec qid aid hd db (hM hd (by simp)) (hE hd (by simp))
        hbh hbm hbe mc ec
    obtain ⟨hc2, mc3, ec3, db2, heq, hq2, ha2, hcd2, hni2, hbh2, hbm2, hbe2, hext2⟩ :=
      ih (fun h2 hm2 => hT h2 (by simp [hm2]))
        (fun h2 hm2 => hM h2 (by simp [hm2]))
        (fun h2 hm2 => hE h2 (by simp [hm2]))
        dbA (hc + 1) mc2 ec2 hbhA hbmA hbeA
    have hstep : insert_full_hints_loop db qid aid ((hd :: rest).map exportHintObj) hc mc ec =
        insert_full_hints_loop dbA qid aid (rest.map exportHintObj) (hc + 1) mc2 ec2 := by
      rw [List.map_cons, insert_full_hints_loop.eq_2]
      simp only [pyAttrGet_exportHintObj_hint, bind, Except.bind, hT hd (by simp),
        Bool.not_true, Bool.false_eq_true, if_false]
      rw [hcalc]
    have hold : ∀ hr ∈ db.hints, hintDataOf dbA hr = hintDataOf db hr := by
      intro hr hmem
      have hlt : hr.hid ≠ db.nextId := Nat.ne_of_lt (hbh hr hmem)
      unfold hintDataOf
      rw [hextM hr.hid, hextE hr.hid, if_neg hlt, if_neg hlt, List.append_nil,
        List.append_nil]
    have h1 : db.metrics.filter (fun mr => mr.hint_id == db.nextId) = [] :=
      List.filter_eq_nil_iff.mpr (fun mr hmr => by simp [nat_beq_of_lt (hbm mr hmr)])
    have h2 : db.entities.filter (fun er => er.hint_id == db.nextId) = [] :=
      List.filter_eq_nil_iff.mpr (fun er her => by simp [nat_beq_of_lt (hbe er her)])
    have hnew : hintDataOf dbA
        ⟨db.nextId, qid, aid, hd.text, get_current_timestamp db.clock⟩ = hd := by
      unfold hintDataOf
      rw [hextM db.nextId, hextE db.nextId, if_pos rfl, if_pos rfl, h1, h2]
      rfl
    have hmid : ∀ qid2,
        (dbA.hints.filter (fun hr => hr.question_id == qid2)).map (hintDataOf dbA) =
        (db.hints.filter (fun hr => hr.question_id == qid2)).map (hintDataOf db) ++
        (if qid2 = qid then [hd] else []) := by
      intro qid2
      rw [hhA, List.filter_append, List.map_append]
      congr 1
      · exact List.map_congr_left (fun hr hmem => hold hr (List.mem_of_mem_filter hmem))
      · by_cases hq2 : qid2 = qid
        · subst hq2
          simp [hnew]
        · have hb : (qid == qid2) = false := beq_eq_false_iff_ne.mpr (Ne.symm hq2)
          simp [hb, hq2]
    refine ⟨hc2, mc3, ec3, db2, hstep ▸ heq, hq2.trans hqA, ha2.trans haA,
      hcd2.trans hcA, Nat.le_trans (Nat.le_of_lt hniA) hni2, hbh2, hbm2, hbe2, ?_⟩
    intro qid2
    rw [hext2 qid2, hmid qid2]
    by_cases hq3 : qid2 = qid
    · subst hq3
      simp
    · simp [hq3]

theorem insert_qa_core_truthy (gen : GenOracle) (db : DB) (session_id : String)
    (q a : JSON) (ha : pyTruthy a = true) :
    insert_qa_core gen db session_id q a =
      ((db.nextId, db.nextId + 1),
       { db with
          questions := db.questions ++
            [⟨db.nextId, q, session_id, get_current_timestamp db.clock⟩],
          answers := db.answers ++
            [⟨db.nextId + 1, db.nextId, a, none, get_current_timestamp (db.clock + 1)⟩],
          nextId := db.nextId + 1 + 1,
          clock := db.clock + 1 + 1 }) := by
  simp [insert_qa_core, insert_question, insert_answer, DB.tick, DB.fresh, ha]

theorem insert_full_backup_exportOf (gen : GenOracle) (db : DB) (session_id : String)
    (fd : FullData)
    (hq : pyTruthy fd.qtext = true) (ha : pyTruthy fd.atext = true)
    (hT : ∀ hd ∈ fd.hints, pyTruthy hd.text = true)
    (hM : ∀ hd ∈ fd.hints, ∀ md ∈ hd.metrics, ∀ v, md.meta = some v → pyTruthy v = true)
    (hE : ∀ hd ∈ fd.hints, ∀ ed ∈ hd.entities, ∀ v, ed.meta = some v → pyTruthy v = true)
    (hWq : ∀ q2 ∈ db.questions, q2.qid < db.nextId)
    (hWa : ∀ a2 ∈ db.answers, a2.question_id < db.nextId)
    (hWh : ∀ h2 ∈ db.hints, h2.hid < db.nextId ∧ h2.question_id < db.nextId)
    (hWm : ∀ m2 ∈ db.metrics, m2.hint_id < db.nextId)
    (hWe : ∀ e2 ∈ db.entities, e2.hint_id < db.nextId)
    (hWc : ∀ c2 ∈ db.candidate_answers, c2.question_id < db.nextId) :
    ∃ res db2,
      insert_full_backup gen db session_id (exportOf fd) = .ok (res, db2) ∧
      db2.questions = db.questions ++
        [⟨db.nextId, fd.qtext, session_id, get_current_timestamp db.clock⟩] ∧
      sessionFullData db2 db.nextId = normalizeFD fd := by
  have hinst : pyAttrGet (exportOf fd) "instances" (.obj []) =
      .ok (.obj (exportFields fd)) := rfl
  have hqraw : pyAttrGet (JSON.obj (exportFields fd)) "question" (.obj []) =
      .ok (.obj [("question", fd.qtext)]) := rfl
  have hansl : pyAttrGet (JSON.obj (exportFields fd)) "answers" (.arr []) =
      .ok (.arr [.obj [("answer", fd.atext)]]) := by
    simp [pyAttrGet, exportFields, lookupField, ha]
  have hhintsl : pyAttrGet (JSON.obj (exportFields fd)) "hints" (.arr []) =
      .ok (.arr (fd.hints.map exportHintObj)) := rfl
  have hcands : pyAttrGet (JSON.obj (exportFields fd)) "candidates_full" (.arr []) =
      .ok (.arr (fd.cands.map exportCandObj)) := by
    cases hcs : fd.cands with
    | nil =>
      cases hmn : fd.modelName with
      | none => simp [pyAttrGet, exportFields, lookupField, hcs, hmn]
      | some m =>
        by_cases hm : m == "" <;>
          simp [pyAttrGet, exportFields, lookupField, hcs, hmn, hm]
    | cons c cs =>
      rw [← hcs]
      simp [pyAttrGet, lookupField_exportFields_cands fd (by rw [hcs]; simp)]
  obtain ⟨cc2, dbC, heqC, hqC, haC, hhC, hmC, heC, hniC, hbC, hextC⟩ :=
    insert_candidates_loop_spec db.nextId fd.cands
      { db with
          questions := db.questions ++
            [⟨db.nextId, fd.qtext, session_id, get_current_timestamp db.clock⟩],
          answers := db.answers ++
            [⟨db.nextId + 1, db.nextId, fd.atext, none, get_current_timestamp (db.clock + 1)⟩],
          nextId := db.nextId + 1 + 1,
          clock := db.clock + 1 + 1 } 0
      (show db.nextId < db.nextId + 1 + 1 by omega)
      (by
        intro cr hcr
        show cr.question_id < db.nextId + 1 + 1
        exact Nat.lt_trans (hWc cr hcr) (by omega))
  dsimp only at hqC haC hhC hmC heC hniC hbC hextC
  obtain ⟨hc2, mc2, ec2, db2, heqH, hq2, ha2, hcd2, hni2, hbh2, hbm2, hbe2, hext2⟩ :=
    insert_full_hints_loop_spec db.nextId (db.nextId + 1) fd.hints hT hM hE dbC 0 0 0
      (by
        intro hr hmem
        rw [hhC] at hmem
        exact Nat.lt_of_lt_of_le
          (Nat.lt_trans (hWh hr hmem).1 (show db.nextId < db.nextId + 1 + 1 by omega)) hniC)
      (by
        intro mr hmem
        rw [hmC] at hmem
        exact Nat.lt_of_lt_of_le
          (Nat.lt_trans (hWm mr hmem) (show db.nextId < db.nextId + 1 + 1 by omega)) hniC)
      (by
        intro er hmem
        rw [heC] at hmem
        exact Nat.lt_of_lt_of_le
          (Nat.lt_trans (hWe er hmem) (show db.nextId < db.nextId + 1 + 1 by omega)) hniC)
  have hrun : insert_full_backup gen db session_id (exportOf fd) =
      .ok (mk_full_result db.nextId hc2 mc2 ec2 cc2, db2) := by
    unfold insert_full_backup
    rw [hinst]
    simp only [bind, Except.bind]
    rw [hqraw]
    simp only [bind, Except.bind]
    rw [hansl]
    simp only [bind, Except.bind]
    have hlookq : (lookupField [("question", fd.qtext)] "question").getD (JSON.str "") =
        fd.qtext := rfl
    have htrue1 : pyTruthy (JSON.arr [JSON.obj [("answer", fd.atext)]]) = true := rfl
    have hidx : pyIndex (JSON.arr [JSON.obj [("answer", fd.atext)]]) 0 =
        .ok (JSON.obj [("answer", fd.atext)]) := rfl
    have hlooka : (lookupField [("answer", fd.atext)] "answer").getD (JSON.str "") =
        fd.atext := rfl
    simp only [htrue1, eq_self_iff_true, if_true, hidx, pure, Except.pure, hlooka, hlookq,
      hq, Bool.not_true, Bool.false_eq_true, if_false]
    rw [insert_qa_core_truthy gen db session_id fd.qtext fd.atext ha]
    dsimp only
    rw [hcands]
    simp only [pyIter]
    rw [heqC]
    dsimp only
    rw [hhintsl]
    simp only [pyIter]
    rw [heqH]
  have hfq : db2.questions = db.questions ++
      [⟨db.nextId, fd.qtext, session_id, get_current_timestamp db.clock⟩] := by
    rw [hq2, hqC]
  have hfa : db2.answers = db.answers ++
      [⟨db.nextId + 1, db.nextId, fd.atext, none, get_current_timestamp (db.clock + 1)⟩] := by
    rw [ha2, haC]
  have hqfilter : db2.questions.filter (fun q2 => q2.qid == db.nextId) =
      [⟨db.nextId, fd.qtext, session_id, get_current_timestamp db.clock⟩] := by
    rw [hfq, List.filter_append,
      List.filter_eq_nil_iff.mpr (fun q2 hmem => by simp [nat_beq_of_lt (hWq q2 hmem)])]
    simp
  have hafilter : db2.answers.filter (fun a2 => a2.question_id == db.nextId) =
      [⟨db.nextId + 1, db.nextId, fd.atext, none, get_current_timestamp (db.clock + 1)⟩] := by
    rw [hfa, List.filter_append,
      List.filter_eq_nil_iff.mpr (fun a2 hmem => by simp [nat_beq_of_lt (hWa a2 hmem)])]
    simp
  have hhfilter :
      (db2.hints.filter (fun h2 => h2.question_id == db.nextId)).map (hintDataOf db2) =
      fd.hints := by
    rw [hext2 db.nextId, if_pos rfl, hhC,
      List.filter_eq_nil_iff.mpr (fun h2 hmem => by simp [nat_beq_of_lt (hWh h2 hmem).2])]
    simp
  have hcfilter :
      (db2.candidate_answers.filter (fun c2 => c2.question_id == db.nextId)).map candDataOf =
      fd.cands.map normCand := by
    rw [hcd2, hextC db.nextId, if_pos rfl,
      List.filter_eq_nil_iff.mpr (fun c2 hmem => by simp [nat_beq_of_lt (hWc c2 hmem)])]
    simp
  refine ⟨mk_full_result db.nextId hc2 mc2 ec2 cc2, db2, hrun, hfq, ?_⟩
  unfold sessionFullData normalizeFD
  rw [hqfilter, hafilter, hhfilter, hcfilter]
  rfl

theorem exportCandObj_normCand (c : CandData) :
    exportCandObj (normCand c) = exportCandObj c := by
  by_cases hu : pyTruthy c.updated <;>
    simp [exportCandObj, normCand, hu, show pyTruthy JSON.null = false from rfl]

theorem exportOf_normalizeFD (fd : FullData) :
    exportOf (normalizeFD fd) = erase_model_name (exportOf fd) := by
  have hcomp : exportCandObj ∘ normCand = exportCandObj := funext exportCandObj_normCand
  cases hmn : fd.modelName with
  | none =>
    by_cases hie : fd.cands.isEmpty <;>
      simp [exportOf, erase_model_name, exportFields, normalizeFD, hmn, hie, isEmpty_map,
        List.filter_append, List.map_map, hcomp]
  | some m =>
    by_cases hm : m == "" <;> by_cases hie : fd.cands.isEmpty <;>
      simp [exportOf, erase_model_name, exportFields, normalizeFD, hmn, hm, hie, isEmpty_map,
        List.filter_append, List.map_map, hcomp]

/-- The referential soundness the storage engine guarantees: every stored
id and foreign key was drawn from the id sequence, hence is below its
next value. -/
def DB.WFb (db : DB) : Prop :=
  (∀ q ∈ db.questions, q.qid < db.nextId) ∧
  (∀ a ∈ db.answers, a.question_id < db.nextId) ∧
  (∀ h2 ∈ db.hints, h2.hid < db.nextId ∧ h2.question_id < db.nextId) ∧
  (∀ m ∈ db.metrics, m.hint_id < db.nextId) ∧
  (∀ e ∈ db.entities, e.hint_id < db.nextId) ∧
  (∀ c ∈ db.candidate_answers, c.question_id < db.nextId)

theorem clear_preserves_WFb (db : DB) (sid : String) (h : db.WFb) :
    ((clear_session_data db sid).2).WFb := by
  obtain ⟨h1, h2, h3, h4, h5, h6⟩ := h
  exact ⟨fun q hq => h1 q (List.mem_of_mem_filter hq),
         fun a ha => h2 a (List.mem_of_mem_filter ha),
         fun hr hh => h3 hr (List.mem_of_mem_filter hh),
         fun m hm => h4 m (List.mem_of_mem_filter hm),
         fun e he => h5 e (List.mem_of_mem_filter he),
         fun c hc => h6 c (List.mem_of_mem_filter hc)⟩

theorem clear_session_filter (db : DB) (sid : String) :
    ((clear_session_data db sid).2).questions.filter
      (fun q => q.session_id == sid) = [] := by
  refine List.filter_eq_nil_iff.mpr ?_
  intro q hq
  have hmem : q ∈ db.questions.filter (fun q2 => !(q2.session_id == sid)) := hq
  have hprop := List.of_mem_filter hmem
  simp at hprop
  simp [hprop]

/-- Importing the full export of a session into any referentially sound
target state succeeds, and the target's re-export is the export of the
normalized session data. -/
theorem import_exportOf (gen : GenOracle) (dbE : DB) (sid2 : String) (fd : FullData)
    (hq : pyTruthy fd.qtext = true) (ha : pyTruthy fd.atext = true)
    (hT : ∀ hd ∈ fd.hints, pyTruthy hd.text = true)
    (hM : ∀ hd ∈ fd.hints, ∀ md ∈ hd.metrics, ∀ v, md.meta = some v → pyTruthy v = true)
    (hE : ∀ hd ∈ fd.hints, ∀ ed ∈ hd.entities, ∀ v, ed.meta = some v → pyTruthy v = true)
    (hlen : 2 ≤ fd.cands.length)
    (hgt : (fd.cands.filter (fun c => c.gt)).length = 1)
    (hWF : dbE.WFb) (hpos : 1 ≤ dbE.nextId) :
    ∃ res db2,
      import_session_data gen dbE sid2 (.jsonData (exportOf fd)) = (.ok res, db2) ∧
      export_session_json db2 sid2 true = exportOf (normalizeFD fd) := by
  have hcne : fd.cands ≠ [] := by
    intro hcs
    rw [hcs] at hlen
    simp at hlen
  obtain ⟨hW1, hW2, hW3, hW4, hW5, hW6⟩ := clear_preserves_WFb dbE sid2 hWF
  obtain ⟨res0, db2, hins, hfq, hsess⟩ :=
    insert_full_backup_exportOf gen ((clear_session_data dbE sid2).2) sid2 fd hq ha hT hM hE
      hW1 hW2 hW3 hW4 hW5 hW6
  have hrun : import_session_data gen dbE sid2 (.jsonData (exportOf fd)) =
      (.ok (attach_cleared res0 (clear_session_data dbE sid2).1), db2) := by
    simp only [import_session_data, is_full_backup_exportOf fd hcne, if_true,
      validate_exportOf_ok fd hlen hgt]
    rw [hins]
  have hqlast : get_last_question_id db2 sid2 = some dbE.nextId := by
    unfold get_last_question_id
    rw [hfq, List.filter_append, clear_session_filter dbE sid2]
    simp
    rfl
  have hexp2 : export_session_json db2 sid2 true =
      exportOf (sessionFullData db2 dbE.nextId) :=
    export_session_json_eq db2 sid2 dbE.nextId hqlast (by omega)
  have hsess2 : sessionFullData db2 dbE.nextId = normalizeFD fd := hsess
  exact ⟨attach_cleared res0 (clear_session_data dbE sid2).1, db2, hrun,
    by rw [hexp2, hsess2]⟩

/-- The stored-metadata invariant of an export source: absent, or truthy
(the service stores `json.dumps(metadata) if metadata else None`). -/
def metaOk (o : Option JSON) : Bool :=
  match o with
  | some v => pyTruthy v
  | none => true

/-- C2 (amended): exporting a session whose data is well formed (truthy
question, answer and hint texts, truthy stored metadata, at least two
candidates of which exactly one is ground truth) as a full backup and
importing the document into a referentially sound target state succeeds,
and the target's re-export equals the first export with the answer's
`model_name` annotation dropped — not the identical document the claim
states. -/
theorem C2_full_backup_round_trip (gen : GenOracle) (db dbE : DB)
    (session_id sid2 : String) (qid : Nat)
    (hlast : get_last_question_id db session_id = some qid) (h0 : qid ≠ 0)
    (hq : pyTruthy (sessionFullData db qid).qtext = true)
    (ha : pyTruthy (sessionFullData db qid).atext = true)
    (hT : ∀ hd ∈ (sessionFullData db qid).hints, pyTruthy hd.text = true)
    (hM : ∀ hd ∈ (sessionFullData db qid).hints, ∀ md ∈ hd.metrics,
      metaOk md.meta = true)
    (hE : ∀ hd ∈ (sessionFullData db qid).hints, ∀ ed ∈ hd.entities,
      metaOk ed.meta = true)
    (hlen : 2 ≤ (sessionFullData db qid).cands.length)
    (hgt : ((sessionFullData db qid).cands.filter (fun c => c.gt)).length = 1)
    (hWF : dbE.WFb) (hpos : 1 ≤ dbE.nextId) :
    ∃ res db2,
      import_session_data gen dbE sid2
        (.jsonData (export_session_json db session_id true)) = (.ok res, db2) ∧
      export_session_json db2 sid2 true =
        erase_model_name (export_session_json db session_id true) := by
  have hexp1 : export_session_json db session_id true =
      exportOf (sessionFullData db qid) :=
    export_session_json_eq db session_id qid hlast h0
  have hM2 : ∀ hd ∈ (sessionFullData db qid).hints, ∀ md ∈ hd.metrics, ∀ v,
      md.meta = some v → pyTruthy v = true := by
    intro hd hh md hm v hv
    have h := hM hd hh md hm
    rw [hv] at h
    exact h
  have hE2 : ∀ hd ∈ (sessionFullData db qid).hints, ∀ ed ∈ hd.entities, ∀ v,
      ed.meta = some v → pyTruthy v = true := by
    intro hd hh ed he v hv
    have h := hE hd hh ed he
    rw [hv] at h
    exact h
  obtain ⟨res, db2, h1, h2⟩ :=
    import_exportOf gen dbE sid2 (sessionFullData db qid) hq ha hT hM2 hE2
      hlen hgt hWF hpos
  rw [hexp1]
  exact ⟨res, db2, h1, by rw [h2, exportOf_normalizeFD]⟩

def cexGen : GenOracle := fun _ _ => none

/-- A one-question session whose stored answer carries a `model_name`. -/
def cexRoundDB : DB :=
  ⟨[⟨1, .str "Q", "s", "ts-0"⟩],
   [⟨2, 1, .str "A", some "M", "ts-1"⟩],
   [], [], [],
   [⟨3, 1, .str "c1", false, .str "t1", .null, true⟩,
    ⟨4, 1, .str "c2", false, .str "t2", .null, false⟩],
   5, 2⟩

/-- C2 counterexample: importing the full export of `cexRoundDB` into an
empty session succeeds, but the re-export differs from the first export —
the answer's `model_name` does not survive the round trip. -/
theorem C2_counterexample :
    (import_session_data cexGen DB.empty "s"
        (.jsonData (export_session_json cexRoundDB "s" true))).1.toOption.isSome = true ∧
    export_session_json
        (import_session_data cexGen DB.empty "s"
          (.jsonData (export_session_json cexRoundDB "s" true))).2 "s" true ≠
      export_session_json cexRoundDB "s" true :=
  ⟨rfl, by decide⟩

/-- A richer session for the witness: a hint with a metric (with truthy
metadata) and an entity, and two candidates with one ground truth. -/
def c2WitDB : DB :=
  ⟨[⟨1, .str "Q", "w", "ts-0"⟩],
   [⟨2, 1, .str "A", some "M", "ts-1"⟩],
   [⟨3, 1, 2, .str "H", "ts-2"⟩],
   [⟨4, 3, .str "acc", .str "0.5", some (.obj [("k", .str "v")])⟩],
   [⟨5, 3, .str "Paris", .str "LOC", .str "0", .str "5", none⟩],
   [⟨6, 1, .str "c1", false, .str "t1", .null, true⟩,
    ⟨7, 1, .str "c2", true, .str "t2", .str "u2", false⟩],
   8, 3⟩

theorem C2_full_backup_round_trip_witness :
    (get_last_question_id c2WitDB "w" = some 1 ∧ DB.empty.WFb ∧ 1 ≤ DB.empty.nextId) ∧
    ∃ res db2,
      import_session_data cexGen DB.empty "w2"
        (.jsonData (export_session_json c2WitDB "w" true)) = (.ok res, db2) ∧
      export_session_json db2 "w2" true =
        erase_model_name (export_session_json c2WitDB "w" true) :=
  ⟨⟨by decide, by unfold DB.WFb; decide, by decide⟩,
   C2_full_backup_round_trip cexGen c2WitDB DB.empty "w" "w2" 1
     (by decide) (by decide) (by decide) (by decide) (by decide) (by decide)
     (by decide) (by decide) (by decide) (by unfold DB.WFb; decide) (by decide)⟩
